import Mathlib

/-!
# Verification of the Evidence Extraction & Arbitration Engine

A shallow embedding of the engine's four core modules
(`util_text.py`, `paper_sections.py`, `extract_rules.py`, `llm_fill.py`,
`export_clinical.py`) and proofs about them.

Modelling conventions:
* Python strings are `String` / `List Char`; machine floats used by the
  source only for comparisons, min/max and decimal parsing are modelled
  as `ℚ` (the source performs no float arithmetic on them).
* Python dict/JSON values are modelled by the inductive `JValue`;
  Python `dict` key order (insertion order, in-place update) is modelled
  by association lists.
* Code paths on which the Python source raises an exception are modelled
  with `Except String`; a `.error` value marks an escaping exception.
* The network call of an LLM backend is modelled as a `Backend` record
  whose `response` field is `none` when the call raises; the list of
  backends invoked during `fill_fields` is returned as an explicit trace,
  standing for the observable call side effect.
-/

set_option maxRecDepth 8000

namespace GeoScrap

/-! ## Text utilities (`util_text.py`) -/

/-- Characters matched by the source's `\s` and stripped by `str.strip`
(ASCII whitespace plus the no-break space). -/
def isPySpace (c : Char) : Bool :=
  c = ' ' || c = '\t' || c = '\n' || c = '\r' || c = '\u000B' || c = '\u000C' || c = ' '

/-- `str.strip()` on a character list. -/
def pyStrip (cs : List Char) : List Char :=
  ((cs.dropWhile isPySpace).reverse.dropWhile isPySpace).reverse

/-- `str.lower()` on a character list (ASCII case folding). -/
def lowerChars (cs : List Char) : List Char :=
  cs.map Char.toLower

/-- Collapse every maximal run of whitespace into a single space
(the `_WHITESPACE_RE.sub(" ", text)` step of `clean_text`).  The fuel
argument bounds the recursion depth; every step consumes at least one
character, so `cs.length` fuel never runs out. -/
def collapseWsF : Nat → List Char → List Char
  | _, [] => []
  | 0, _ :: _ => []
  | fuel + 1, c :: rest =>
    if isPySpace c then ' ' :: collapseWsF fuel (rest.dropWhile isPySpace)
    else c :: collapseWsF fuel rest

def collapseWs (cs : List Char) : List Char :=
  collapseWsF cs.length cs

/-- `clean_text` from `util_text.py`: replace NBSP by a space, collapse
whitespace runs, strip. -/
def clean_text (cs : List Char) : List Char :=
  pyStrip (collapseWs (cs.map fun c => if c = ' ' then ' ' else c))

/-- `normalize_quotes` from `util_text.py`. -/
def normalize_quotes (cs : List Char) : List Char :=
  cs.map fun c =>
    if c = '“' then '"' else if c = '”' then '"' else if c = '’' then '\'' else c

/-- Does `hay` begin with `pat`? -/
def beginsWith : List Char → List Char → Bool
  | _, [] => true
  | [], _ :: _ => false
  | c :: cs, p :: ps => c = p && beginsWith cs ps

/-- Auxiliary loop of Python's non-overlapping `str.count`, with a fuel
bound on the recursion depth; every step consumes at least one character
(`pat` is non-empty in the first branch), so `cs.length` fuel suffices. -/
def countSubAuxF (pat : List Char) : Nat → List Char → Nat
  | _, [] => 0
  | 0, _ :: _ => 0
  | fuel + 1, c :: rest =>
    if pat = [] then 0
    else if beginsWith (c :: rest) pat then
      1 + countSubAuxF pat fuel (List.drop pat.length (c :: rest))
    else
      countSubAuxF pat fuel rest

def countSubAux (pat cs : List Char) : Nat :=
  countSubAuxF pat cs.length cs

/-- Python `str.count`: number of non-overlapping occurrences
(`len + 1` for the empty pattern, as in Python). -/
def countSub (hay pat : List Char) : Nat :=
  if pat = [] then hay.length + 1 else countSubAux pat hay

/-- Python `str.split(",")`. -/
def splitComma : List Char → List (List Char)
  | [] => [[]]
  | c :: rest =>
    match splitComma rest with
    | [] => [[c]]
    | t :: ts => if c = ',' then [] :: t :: ts else (c :: t) :: ts

/-- `sliding_window` from `util_text.py`, as the list of
`(offset, window-text)` pairs the generator yields.  The Python loop
advances `idx` by `step` each turn (and diverges for `step = 0`); the
guard `0 < step` makes the recursion well founded. -/
def slidingWindowAuxF (cs : List Char) (window step : Nat) :
    Nat → Nat → List (Nat × List Char)
  | 0, _ => []
  | fuel + 1, idx =>
    if idx < cs.length ∧ 0 < step then
      (idx, (cs.drop idx).take window) ::
        (if cs.length ≤ idx + window then []
         else slidingWindowAuxF cs window step fuel (idx + step))
    else []

def slidingWindowAux (cs : List Char) (window step : Nat) (idx : Nat) :
    List (Nat × List Char) :=
  slidingWindowAuxF cs window step (cs.length - idx) idx

/-- `sliding_window(text, window, step)`: the whole text is one window when
`window = 0` or the text fits in one window; otherwise overlapping windows. -/
def sliding_window (cs : List Char) (window step : Nat) : List (Nat × List Char) :=
  if window = 0 then [(0, cs)]
  else if cs.length ≤ window then [(0, cs)]
  else slidingWindowAux cs window step 0

/-- Python slice `s[:k]` for a possibly negative bound `k`. -/
def pySliceTo (cs : List Char) (k : Int) : List Char :=
  cs.take (if k < 0 then (cs.length + k).toNat else k.toNat)

/-- `truncate` from `util_text.py`. -/
def truncate (cs : List Char) (limit : Nat) : List Char :=
  if cs.length ≤ limit then cs
  else pySliceTo cs ((limit : Int) - 3) ++ "...".toList

/-- `unique_preserve_order` from `util_text.py`, for plain strings:
drop falsy entries, deduplicate case-insensitively on the stripped key. -/
def unique_preserve_order (values : List String) : List String :=
  go values []
where
  go : List String → List (List Char) → List String
    | [], _ => []
    | v :: vs, seen =>
      if v = "" then go vs seen
      else
        let key := pyStrip (lowerChars v.toList)
        if seen.contains key then go vs seen
        else v :: go vs (key :: seen)

/-! ## A small regex engine

The source compiles a fixed battery of Python regexes, in all of which
repetition occurs only over single-character classes.  `Atom` is the
corresponding pattern language; `matchAtoms` implements Python `re`
matching semantics for it (ordered alternation, greedy class repetition
with backtracking, word boundaries, numbered captures), and `reSearch`
implements `re.search` (leftmost successful start position wins). -/

/-- One atom of a compiled pattern. -/
inductive Atom where
  | lit (s : List Char)
  | cls (p : Char → Bool) (lo : Nat) (hi : Option Nat)
  | alt (alts : List (List Atom))
  | wb
  | eol
  | capStart (i : Nat)
  | capEnd (i : Nat)

/-- Case-insensitively strip the (lowercase) literal `pat` from the front
of `cs`. -/
def dropLitCI : List Char → List Char → Option (List Char)
  | [], cs => some cs
  | _ :: _, [] => none
  | p :: ps, c :: cs => if c.toLower = p then dropLitCI ps cs else none

/-- Python `\w`. -/
def isWordChar (c : Char) : Bool :=
  c.isAlphanum || c = '_'

/-- Python `\b`: exactly one side of the position holds a word character. -/
def atBoundary (prev : Option Char) (rest : List Char) : Bool :=
  let pw := match prev with | none => false | some c => isWordChar c
  let nw := match rest with | [] => false | c :: _ => isWordChar c
  pw != nw

/-- Matcher state: the unread suffix, the character just before it,
open capture groups (index, suffix at group start) and completed
captures (most recent first). -/
structure MState where
  rest : List Char
  prev : Option Char
  opens : List (Nat × List Char)
  caps : List (Nat × List Char)

/-- Advance an `MState` by consuming `n` characters. -/
def MState.consume (st : MState) (n : Nat) : MState :=
  if n = 0 then st
  else
    { st with
      rest := st.rest.drop n
      prev := (st.rest.take n).getLast? }

theorem sizeOf_atoms_append (xs ys : List Atom) :
    sizeOf (xs ++ ys) + 1 = sizeOf xs + sizeOf ys := by
  induction xs with
  | nil => simp; omega
  | cons x xs ih => simp only [List.cons_append, List.cons.sizeOf_spec]; omega

mutual

/-- Recursion-depth bound for matching one atom. -/
def fuelAtom : Atom → Nat
  | .alt alts => 1 + fuelAlts alts
  | _ => 1

def fuelAlts : List (List Atom) → Nat
  | [] => 1
  | a :: as => fuelAtoms a + fuelAlts as

/-- Recursion-depth bound for matching an atom list. -/
def fuelAtoms : List Atom → Nat
  | [] => 1
  | x :: xs => fuelAtom x + fuelAtoms xs

end

/-- Match a pattern against the state, Python-style: the first success in
backtracking order.  Returns the final state on success.  The fuel bounds
the recursion depth: `fuelAtoms atoms` strictly decreases along every call
(for an alternative branch, `fuelAtoms (a ++ rest) < fuelAtoms (.alt alts
:: rest)` whenever `a ∈ alts`), so `fuelAtoms atoms` fuel never runs
out. -/
def matchAtomsF : Nat → List Atom → MState → Option MState
  | _, [], st => some st
  | 0, _ :: _, _ => none
  | fuel + 1, .lit s :: rest, st =>
    match dropLitCI s st.rest with
    | none => none
    | some _ => matchAtomsF fuel rest (st.consume s.length)
  | fuel + 1, .cls p lo hi :: rest, st =>
    let m₀ := (st.rest.takeWhile p).length
    let m := match hi with | none => m₀ | some h => min m₀ h
    if m < lo then none
    else
      ((List.range (m - lo + 1)).map fun k => m - k).findSome? fun n =>
        matchAtomsF fuel rest (st.consume n)
  | fuel + 1, .alt alts :: rest, st =>
    alts.findSome? fun a => matchAtomsF fuel (a ++ rest) st
  | fuel + 1, .wb :: rest, st =>
    if atBoundary st.prev st.rest then matchAtomsF fuel rest st else none
  | fuel + 1, .eol :: rest, st =>
    if st.rest = [] then matchAtomsF fuel rest st else none
  | fuel + 1, .capStart i :: rest, st =>
    matchAtomsF fuel rest { st with opens := (i, st.rest) :: st.opens }
  | fuel + 1, .capEnd i :: rest, st =>
    match st.opens.find? (fun q => q.1 = i) with
    | none => none
    | some q =>
      matchAtomsF fuel rest
        { st with caps := (i, q.2.take (q.2.length - st.rest.length)) :: st.caps }

def matchAtoms (atoms : List Atom) (st : MState) : Option MState :=
  matchAtomsF (fuelAtoms atoms) atoms st

/-- The result of a successful `re.search`: the start offset, the matched
text (`group(0)`) and the numbered captures. -/
structure RMatch where
  start : Nat
  matched : List Char
  caps : List (Nat × List Char)
deriving DecidableEq, Repr

/-- `group(i)` of a match (empty for an unset group). -/
def RMatch.group (m : RMatch) (i : Nat) : List Char :=
  match m.caps.find? (fun q => q.1 = i) with
  | some q => q.2
  | none => []

/-- Try to match at successive start positions (`re.search`). -/
def searchFrom (pat : List Atom) : Nat → Option Char → List Char → Option RMatch
  | pos, prev, cs =>
    match matchAtoms pat ⟨cs, prev, [], []⟩ with
    | some st => some ⟨pos, cs.take (cs.length - st.rest.length), st.caps⟩
    | none =>
      match cs with
      | [] => none
      | c :: rest => searchFrom pat (pos + 1) (some c) rest

/-- `re.search(pattern, text)`. -/
def reSearch (pat : List Atom) (cs : List Char) : Option RMatch :=
  searchFrom pat 0 none cs

/-- A rational given in lowest terms as a kernel-normal form, used for
the source's decimal literals (the scientific-literal elaboration of `ℚ`
does not reduce in the kernel). -/
def qlit (n : Int) (d : Nat) (h1 : d ≠ 0 := by decide)
    (h2 : n.natAbs.Coprime d := by decide) : ℚ :=
  ⟨n, d, h1, h2⟩

theorem qlit_eq (n : Int) (d : Nat) (h1 : d ≠ 0) (h2 : n.natAbs.Coprime d) :
    qlit n d h1 h2 = (n : ℚ) / (d : ℚ) := by
  unfold qlit
  rw [Rat.mk'_eq_divInt, Rat.divInt_eq_div]
  norm_num

/-! ## Configuration (`config.py`) -/

/-- The `PaperConfig` dataclass with its documented defaults.  Numeric
thresholds are rationals; counts and sizes are naturals. -/
structure PaperConfig where
  cache_dir : String := "cache"
  out_dir : String := "out"
  papers_dir : String := "papers"
  max_threads : Nat := 4
  entrez_sleep_sec : ℚ := qlit 17 50
  max_snippets_per_field : Nat := 3
  window_chars : Nat := 1200
  window_step : Nat := 400
  accept_confidence : ℚ := qlit 7 10
  escalate_confidence : ℚ := qlit 3 5
  primary_provider : String := "openai"
  primary_model : String := "gpt-4.1-mini"
  fallback_provider : String := "anthropic"
  fallback_model : String := "claude-3.5-sonnet"
  price_in_per_mtok_primary : ℚ := qlit 1 2
  price_out_per_mtok_primary : ℚ := qlit 1 2
  price_in_per_mtok_fallback : ℚ := qlit 3 1
  price_out_per_mtok_fallback : ℚ := qlit 15 1
deriving DecidableEq, Repr

/-- `DEFAULT_CFG = PaperConfig()`. -/
def DEFAULT_CFG : PaperConfig := {}

/-! ## Snippet extraction (`paper_sections.py`) -/

/-- The `Snippet` dataclass. -/
structure Snippet where
  gse : String
  field_group : String
  source : String
  section_title : String
  text : String
  locator : String
deriving DecidableEq, Repr

/-- `FIELD_GROUP_KEYWORDS`: field groups in dict order with their keyword
lists. -/
def FIELD_GROUP_KEYWORDS : List (String × List String) :=
  [("ga_trimester",
    ["gestational age", "weeks", "trimester", "delivery", "collection",
     "sampling", "birth", "term", "preterm"]),
   ("birthweight", ["birth weight", "birthweight", "bw", "grams", "kg"]),
   ("parity",
    ["parity", "nulliparous", "multiparous", "gravidity", "gravida", "g0p0"]),
   ("offspring", ["singleton", "twin", "multiple", "fetuses", "offspring"]),
   ("sex", ["sex", "male", "female", "fetus"]),
   ("race",
    ["race", "ethnicity", "self-reported", "hispanic", "white", "black",
     "asian"]),
   ("ancestry",
    ["ancestry", "strain", "c57", "european", "african", "admixed"]),
   ("maternal",
    ["maternal age", "maternal height", "maternal weight", "pre-pregnancy"]),
   ("paternal", ["paternal age", "paternal height", "paternal weight"]),
   ("mode_delivery", ["cesarean", "caesarean", "c-section", "vaginal"]),
   ("pregnancy_complications",
    ["preeclampsia", "gestational diabetes", "hypertension", "preterm",
     "placenta previa", "placental abruption", "chorioamnionitis"]),
   ("fetal_complications",
    ["fetal distress", "anomaly", "nicu", "iugr", "sga", "growth restriction"]),
   ("site",
    ["hospital", "center", "university", "collected at", "recruited", "city",
     "country"])]

/-- A character allowed after the leading letter of a heading title:
alphanumeric, space, comma, hyphen, slash or parenthesis. -/
def isHeadChar (c : Char) : Bool :=
  c.isAlphanum || c = ' ' || c = ',' || c = '-' || c = '/' || c = '(' || c = ')'

/-- `_HEADING_RE`, compiled for one line (the `(?im)` pattern is anchored
at line starts; `$` is the end of the line). -/
def HEADING_PAT : List Atom :=
  [.alt [[.cls Char.isDigit 1 none,
          .cls (fun c => c = '.' || c = ')' || c = '-') 1 (some 1),
          .cls isPySpace 1 none],
         []],
   .capStart 1,
   .cls Char.isAlpha 1 (some 1),
   .cls isHeadChar 3 none,
   .capEnd 1,
   .cls isPySpace 0 none,
   .eol]

/-- Auxiliary recursion for `splitLinesPos`: emit the line starting at
offset `off`, then continue past its newline.  Every step drops at least
one character, so `rest.length` fuel never runs out. -/
def splitLinesAuxF : Nat → Nat → List Char → List (Nat × List Char)
  | 0, off, rest => [(off, rest.takeWhile (· ≠ '\n'))]
  | fuel + 1, off, rest =>
    if rest.length ≤ (rest.takeWhile (· ≠ '\n')).length then
      [(off, rest.takeWhile (· ≠ '\n'))]
    else
      (off, rest.takeWhile (· ≠ '\n')) ::
        splitLinesAuxF fuel (off + (rest.takeWhile (· ≠ '\n')).length + 1)
          (rest.drop ((rest.takeWhile (· ≠ '\n')).length + 1))

def splitLinesAux (off : Nat) (rest : List Char) : List (Nat × List Char) :=
  splitLinesAuxF rest.length off rest

/-- Split a text into its lines with their start offsets (the positions at
which the multiline anchor `^` matches). -/
def splitLinesPos (cs : List Char) : List (Nat × List Char) :=
  splitLinesAux 0 cs

/-- `_build_heading_lookup`: every line matching the heading pattern,
as `(offset, cleaned title)`. -/
def build_heading_lookup (cs : List Char) : List (Nat × List Char) :=
  (splitLinesPos cs).filterMap fun q =>
    match matchAtoms HEADING_PAT ⟨q.2, none, [], []⟩ with
    | none => none
    | some st =>
      let title := clean_text (RMatch.group ⟨q.1, [], st.caps⟩ 1)
      if title = [] then none else some (q.1, title)

/-- `_nearest_heading`: the last heading at or before `idx`, else empty. -/
def nearest_heading (headings : List (Nat × List Char)) (idx : Nat) : List Char :=
  go headings []
where
  go : List (Nat × List Char) → List Char → List Char
    | [], acc => acc
    | (pos, title) :: hs, acc =>
      if pos ≤ idx then go hs title else acc

/-- `_score_window`: sum of case-insensitive keyword occurrence counts. -/
def score_window (w : List Char) (keywords : List String) : Nat :=
  (keywords.map fun kw => countSub (lowerChars w) kw.toList).sum

/-- Stable insertion into a score-descending list: the new element goes
after every element with an equal or higher score (the behaviour of
Python's stable `list.sort(key=score, reverse=True)` for an element
arriving later in the input). -/
def insortByScore (x : Nat × Nat × List Char) :
    List (Nat × Nat × List Char) → List (Nat × Nat × List Char)
  | [] => [x]
  | y :: ys => if y.1 < x.1 then x :: y :: ys else y :: insortByScore x ys

/-- Python's stable `scored.sort(key=lambda x: x[0], reverse=True)`,
modelled as a stable insertion sort processing the list left to right. -/
def sortByScoreDesc (l : List (Nat × Nat × List Char)) :
    List (Nat × Nat × List Char) :=
  l.foldl (fun acc x => insortByScore x acc) []

/-- The scored windows one field group collects: every window whose score
is strictly positive, with its score and offset, in generation order. -/
def scoredWindows (text : List Char) (cfg : PaperConfig)
    (keywords : List String) : List (Nat × Nat × List Char) :=
  (sliding_window text cfg.window_chars cfg.window_step).filterMap fun q =>
    let s := score_window q.2 keywords
    if s ≤ 0 then none else some (s, q.1, q.2)

/-- Build the `Snippet` for one retained scored window. -/
def mkSnippet (gse source : String) (cfg : PaperConfig)
    (headings : List (Nat × List Char)) (fieldGroup : String)
    (q : Nat × Nat × List Char) : Snippet :=
  { gse := gse
    field_group := fieldGroup
    source := source
    section_title := String.mk (nearest_heading headings q.2.1)
    text := String.mk (truncate (pyStrip q.2.2) cfg.window_chars)
    locator := "offset:" ++ toString q.2.1 }

/-- The snippets contributed by one field group. -/
def groupSnippets (gse source : String) (cfg : PaperConfig) (text : List Char)
    (headings : List (Nat × List Char)) (fg : String × List String) :
    List Snippet :=
  ((sortByScoreDesc (scoredWindows text cfg fg.2)).take
      cfg.max_snippets_per_field).map
    (mkSnippet gse source cfg headings fg.1)

/-- `find_snippets` from `paper_sections.py`. -/
def find_snippets (gse : String) (paper_text : String) (source : String)
    (cfg : PaperConfig) : List Snippet :=
  if paper_text = "" then []
  else
    let text := clean_text paper_text.toList
    if text = [] then []
    else
      let headings := build_heading_lookup text
      FIELD_GROUP_KEYWORDS.flatMap (groupSnippets gse source cfg text headings)

/-! ## Rule engine (`extract_rules.py`) -/

/-- The `RuleHit` dataclass. -/
structure RuleHit where
  field : String
  provided : Bool
  value : Option String
  evidence : String
  confidence : ℚ := 1
  source : Option String := none
  locator : Option String := none
deriving DecidableEq, Repr

/-- Substring containment (Python `in` on strings). -/
def hasSub : List Char → List Char → Bool
  | hay, pat =>
    if beginsWith hay pat then true
    else match hay with
      | [] => pat = []
      | _ :: rest => hasSub rest pat

/-- `\s+` -/
def sp1 : Atom := .cls isPySpace 1 none

/-- `TRIMESTER_PATTERNS` with their canonical values, in source order. -/
def TRIMESTER_PATTERNS : List (List Atom × String) :=
  [([.wb, .alt [[.lit "1st".toList], [.lit "first".toList]], sp1,
     .lit "trimester".toList, .wb], "1st"),
   ([.wb, .alt [[.lit "2nd".toList], [.lit "second".toList]], sp1,
     .lit "trimester".toList, .wb], "2nd"),
   ([.wb, .alt [[.lit "3rd".toList], [.lit "third".toList]], sp1,
     .lit "trimester".toList, .wb], "3rd"),
   ([.wb, .lit "term".toList, .wb], "term"),
   ([.wb, .alt [[.lit "preterm".toList], [.lit "premature".toList]], .wb],
    "premature")]

/-- `GA_DELIVERY_RE` (group 2 captures the week count). -/
def GA_DELIVERY_RE : List Atom :=
  [.lit "gestational".toList, sp1, .lit "age".toList,
   .cls (fun c => !(c = '.' || c = '\n')) 0 (some 60),
   .alt [[.lit "delivery".toList], [.lit "birth".toList]],
   .cls (fun c => !c.isDigit) 0 (some 20),
   .capStart 2, .cls Char.isDigit 2 (some 3), .capEnd 2,
   .cls isPySpace 0 none,
   .alt [[.lit "weeks".toList], [.lit "wk".toList]]]

/-- `GA_COLLECTION_RE` (group 2 captures the week count). -/
def GA_COLLECTION_RE : List Atom :=
  [.lit "gestational".toList, sp1, .lit "age".toList,
   .cls (fun c => !(c = '.' || c = '\n')) 0 (some 60),
   .alt [[.lit "collection".toList], [.lit "sampling".toList]],
   .cls (fun c => !c.isDigit) 0 (some 20),
   .capStart 2, .cls Char.isDigit 2 (some 3), .capEnd 2,
   .cls isPySpace 0 none,
   .alt [[.lit "weeks".toList], [.lit "wk".toList]]]

/-- `BIRTHWEIGHT_RE`. -/
def BIRTHWEIGHT_RE : List Atom :=
  [.lit "birth".toList, .cls (fun c => c = ' ' || c = '-') 0 (some 1),
   .lit "weight".toList,
   .cls (fun c => !c.isDigit) 0 (some 40),
   .alt [[.cls Char.isDigit 3 (some 4), .cls isPySpace 0 none, .lit "g".toList],
         [.cls Char.isDigit 1 (some 1), .lit ".".toList,
          .cls Char.isDigit 1 (some 1), .cls isPySpace 0 none,
          .lit "kg".toList]]]

/-- `PRESENCE_PATTERNS`, in dict order.  Alternation binds loosest in the
source regexes, so e.g. `\bgravidity|gravida\b` is
`(\bgravidity)|(gravida\b)`. -/
def PRESENCE_PATTERNS : List (String × List Atom) :=
  [("sex_of_offspring_provided", [.wb, .lit "sex".toList, .wb]),
   ("parity_provided", [.wb, .lit "parity".toList, .wb]),
   ("gravidity_provided",
    [.alt [[.wb, .lit "gravidity".toList], [.lit "gravida".toList, .wb]]]),
   ("num_offspring_per_pregnancy_provided",
    [.alt [[.wb, .lit "singleton".toList], [.lit "twin".toList],
           [.lit "triplet".toList], [.lit "multiple".toList, .wb]]]),
   ("race_ethnicity_provided",
    [.alt [[.wb, .lit "race".toList], [.lit "ethnicity".toList],
           [.lit "self-reported".toList, .wb]]]),
   ("genetic_ancestry_or_strain_provided",
    [.alt [[.wb, .lit "ancestry".toList], [.lit "strain".toList, .wb]]]),
   ("maternal_height_provided", [.lit "maternal".toList, sp1, .lit "height".toList]),
   ("maternal_prepreg_weight_provided",
    [.alt [[.lit "pre".toList, .cls (fun c => c = '-') 0 (some 1),
            .lit "pregnancy".toList, sp1, .lit "weight".toList],
           [.lit "maternal".toList, sp1, .lit "weight".toList]]]),
   ("paternal_height_provided", [.lit "paternal".toList, sp1, .lit "height".toList]),
   ("paternal_weight_provided", [.lit "paternal".toList, sp1, .lit "weight".toList]),
   ("maternal_age_at_collection_provided",
    [.lit "maternal".toList, sp1, .lit "age".toList]),
   ("paternal_age_at_collection_provided",
    [.lit "paternal".toList, sp1, .lit "age".toList]),
   ("mode_of_delivery_provided",
    [.alt [[.lit "cesarean".toList], [.lit "caesarean".toList],
           [.lit "c-section".toList], [.lit "vaginal".toList]]])]

/-- `OFFSPRING_KEYWORDS`. -/
def OFFSPRING_KEYWORDS : List String :=
  ["singleton", "twin", "triplet", "multiple", "fetuses"]

/-- `RACE_KEYWORDS`. -/
def RACE_KEYWORDS : List String :=
  ["race", "ethnicity", "self-reported", "hispanic", "white", "black", "asian"]

/-- `ANCESTRY_KEYWORDS`. -/
def ANCESTRY_KEYWORDS : List String :=
  ["ancestry", "strain", "c57", "european", "african", "admixed"]

/-- `PREGNANCY_COMPLICATION_KEYWORDS`, in dict order. -/
def PREGNANCY_COMPLICATION_KEYWORDS : List (String × List Atom) :=
  [("preeclampsia",
    [.alt [[.lit "preeclampsia".toList], [.lit "pre-eclampsia".toList]]]),
   ("gestational diabetes",
    [.lit "gestational".toList, sp1, .lit "diabetes".toList]),
   ("hypertension",
    [.alt [[.lit "gestational".toList, sp1, .lit "hypertension".toList],
           [.lit "pregnancy-induced".toList, sp1, .lit "hypertension".toList]]]),
   ("preterm birth",
    [.alt [[.lit "preterm".toList, sp1, .lit "birth".toList],
           [.lit "ptb".toList]]]),
   ("placenta previa", [.lit "placenta".toList, sp1, .lit "previa".toList]),
   ("placental abruption",
    [.lit "placental".toList, sp1, .lit "abruption".toList]),
   ("chorioamnionitis", [.lit "chorioamnionitis".toList])]

/-- `FETAL_COMPLICATION_KEYWORDS`, in dict order. -/
def FETAL_COMPLICATION_KEYWORDS : List (String × List Atom) :=
  [("fetal distress", [.lit "fetal".toList, sp1, .lit "distress".toList]),
   ("congenital anomaly",
    [.lit "congenital".toList, sp1, .lit "anomal".toList,
     .alt [[.lit "y".toList], [.lit "ies".toList]]]),
   ("nicu", [.lit "nicu".toList]),
   ("iugr",
    [.alt [[.lit "iugr".toList],
           [.lit "intrauterine".toList, sp1, .lit "growth".toList, sp1,
            .lit "restriction".toList]]]),
   ("sga",
    [.alt [[.lit "small".toList, sp1, .lit "for".toList, sp1,
            .lit "gestational".toList, sp1, .lit "age".toList],
           [.lit "sga".toList]]])]

/-- `SITE_RE` (group 2 captures the location). -/
def SITE_RE : List Atom :=
  [.capStart 1,
   .alt [[.lit "collected at".toList], [.lit "recruited from".toList],
         [.lit "enrolled at".toList], [.lit "delivered at".toList],
         [.lit "performed at".toList], [.lit "obtained from".toList]],
   .capEnd 1,
   sp1,
   .capStart 2,
   .cls (fun c => !(c = '.' || c = ';' || c = '\n')) 1 none,
   .capEnd 2]

/-- `COUNTRY_LIST` (a set; only membership is used). -/
def COUNTRY_LIST : List String :=
  ["united states", "usa", "china", "canada", "united kingdom", "australia",
   "germany", "france", "spain", "italy", "brazil", "india", "japan",
   "mexico", "sweden", "norway", "denmark", "finland", "netherlands",
   "russia", "korea", "hong kong", "taiwan", "singapore", "thailand",
   "argentina", "south africa"]

/-- Does the hit map already contain `key`?  (Python `key in hits`.) -/
def hitsContains (hits : List (String × RuleHit)) (key : String) : Bool :=
  (hits.find? fun q => q.1 = key).isSome

/-- `_add_hit`: insert a fresh `RuleHit` unless the field already has one
(first writer wins); insertion order is preserved. -/
def add_hit (hits : List (String × RuleHit)) (key : String)
    (value : Option String) (evidence : String) (source : String)
    (locator : String) (provided : Bool := true) : List (String × RuleHit) :=
  if hitsContains hits key then hits
  else
    hits ++ [(key,
      { field := key, provided := provided, value := value
        evidence := String.mk (clean_text evidence.toList)
        source := some source, locator := some locator })]

/-- Add an element to a set modelled as a duplicate-free list. -/
def addToSet (s : List String) (x : String) : List String :=
  if s.contains x then s else s ++ [x]

/-- The accumulation state of `apply_rules`: the field-to-hit map and the
two complication sets. -/
structure RState where
  hits : List (String × RuleHit)
  preg : List String
  fetal : List String
deriving Repr

/-- The hospital/site block of `apply_rules` for one snippet: record the
captured location, then scan its comma-separated tokens from the tail
backwards for a known country name. -/
def siteStep (hits : List (String × RuleHit)) (snip : Snippet) :
    List (String × RuleHit) :=
  if hitsContains hits "hospital_center" then hits
  else
    match reSearch SITE_RE snip.text.toList with
    | none => hits
    | some m =>
      let location := clean_text (m.group 2)
      let hits := add_hit hits "hospital_center" (some (String.mk location))
        (String.mk m.matched) snip.source snip.locator
      let tokens := ((splitComma location).map pyStrip).reverse
      match tokens.find?
          (fun t => COUNTRY_LIST.contains (String.mk (lowerChars t))) with
      | some tok =>
        add_hit hits "country_of_collection" (some (String.mk tok))
          (String.mk m.matched) snip.source snip.locator
      | none => hits

/-- The trimester block of `apply_rules`: the first pattern to match any
text wins. -/
def trimesterStep (hits : List (String × RuleHit)) (snip : Snippet) :
    List (String × RuleHit) :=
  if hitsContains hits "pregnancy_trimester" then hits
  else
    match TRIMESTER_PATTERNS.findSome?
        (fun q => (reSearch q.1 snip.text.toList).map fun m => (m, q.2)) with
    | some (m, value) =>
      add_hit hits "pregnancy_trimester" (some value) (String.mk m.matched)
        snip.source snip.locator
    | none => hits

/-- The gestational-age-at-delivery block of `apply_rules`. -/
def gaDeliveryStep (hits : List (String × RuleHit)) (snip : Snippet) :
    List (String × RuleHit) :=
  if hitsContains hits "ga_at_delivery_weeks" then hits
  else
    match reSearch GA_DELIVERY_RE snip.text.toList with
    | some m =>
      add_hit (add_hit hits "ga_at_delivery_weeks"
          (some (String.mk (m.group 2))) (String.mk m.matched) snip.source
          snip.locator)
        "ga_at_delivery_provided" (some "yes") (String.mk m.matched)
        snip.source snip.locator
    | none => hits

/-- The gestational-age-at-collection block of `apply_rules`. -/
def gaCollectionStep (hits : List (String × RuleHit)) (snip : Snippet) :
    List (String × RuleHit) :=
  if hitsContains hits "ga_at_collection_weeks" then hits
  else
    match reSearch GA_COLLECTION_RE snip.text.toList with
    | some m =>
      add_hit (add_hit hits "ga_at_collection_weeks"
          (some (String.mk (m.group 2))) (String.mk m.matched) snip.source
          snip.locator)
        "ga_at_collection_provided" (some "yes") (String.mk m.matched)
        snip.source snip.locator
    | none => hits

/-- The birthweight block of `apply_rules`. -/
def birthweightStep (hits : List (String × RuleHit)) (snip : Snippet) :
    List (String × RuleHit) :=
  if hitsContains hits "birthweight_provided" then hits
  else
    match reSearch BIRTHWEIGHT_RE snip.text.toList with
    | some m =>
      add_hit hits "birthweight_provided" (some "yes") (String.mk m.matched)
        snip.source snip.locator
    | none => hits

/-- One presence-pattern attempt of `apply_rules`. -/
def presenceStep (snip : Snippet) (hits : List (String × RuleHit))
    (fp : String × List Atom) : List (String × RuleHit) :=
  if hitsContains hits fp.1 then hits
  else
    match reSearch fp.2 snip.text.toList with
    | some m =>
      add_hit hits fp.1 (some "yes") (String.mk m.matched) snip.source
        snip.locator
    | none => hits

/-- One keyword-fallback block of `apply_rules` (evidence is the whole
snippet text). -/
def keywordStep (field : String) (keywords : List String)
    (hits : List (String × RuleHit)) (snip : Snippet) :
    List (String × RuleHit) :=
  if hitsContains hits field then hits
  else if keywords.any
      (fun kw => hasSub (lowerChars snip.text.toList) kw.toList) then
    add_hit hits field (some "yes") snip.text snip.source snip.locator
  else hits

/-- The body of the per-snippet loop of `apply_rules`: the statement
blocks of the source, in order. -/
def processSnippet (st : RState) (snip : Snippet) : RState :=
  let hits := trimesterStep st.hits snip
  let hits := gaDeliveryStep hits snip
  let hits := gaCollectionStep hits snip
  let hits := birthweightStep hits snip
  let hits := PRESENCE_PATTERNS.foldl (presenceStep snip) hits
  let hits := keywordStep "num_offspring_per_pregnancy_provided"
    OFFSPRING_KEYWORDS hits snip
  let hits := keywordStep "race_ethnicity_provided" RACE_KEYWORDS hits snip
  let hits := keywordStep "genetic_ancestry_or_strain_provided"
    ANCESTRY_KEYWORDS hits snip
  -- Complication sets accumulate across snippets.
  let preg := PREGNANCY_COMPLICATION_KEYWORDS.foldl
    (fun s np => if (reSearch np.2 snip.text.toList).isSome
      then addToSet s np.1 else s)
    st.preg
  let fetal := FETAL_COMPLICATION_KEYWORDS.foldl
    (fun s np => if (reSearch np.2 snip.text.toList).isSome
      then addToSet s np.1 else s)
    st.fetal
  -- Hospital / country.
  let hits := siteStep hits snip
  ⟨hits, preg, fetal⟩

/-- Python `sorted` on strings (ascending code-point order). -/
def sortedStrings (l : List String) : List String :=
  l.insertionSort (fun a b => a ≤ b)

/-- The aggregate-hit synthesis performed after the snippet loop. -/
def pregPhase (st : RState) (hits : List (String × RuleHit)) :
    List (String × RuleHit) :=
  if st.preg ≠ [] ∧ ¬hitsContains hits "pregnancy_complications_list" then
    let evidence := String.intercalate "; " (sortedStrings st.preg)
    add_hit
      (add_hit hits "pregnancy_complications_list"
        (some (String.intercalate ", " (sortedStrings st.preg))) evidence
        "rule" "aggregate")
      "samples_from_pregnancy_complications_collected"
      (some "yes") evidence "rule" "aggregate"
  else hits

def fetalValuePhase (st : RState) (hits : List (String × RuleHit)) :
    List (String × RuleHit) :=
  if ¬hitsContains hits "fetal_complications" then
    add_hit hits "fetal_complications"
      (some (String.intercalate ", " (sortedStrings st.fetal)))
      (String.intercalate "; " (sortedStrings st.fetal)) "rule" "aggregate"
  else hits

def fetalListedPhase (st : RState) (hits : List (String × RuleHit)) :
    List (String × RuleHit) :=
  if ¬hitsContains hits "fetal_complications_listed" then
    add_hit hits "fetal_complications_listed" (some "yes")
      (String.intercalate "; " (sortedStrings st.fetal)) "rule" "aggregate"
  else hits

def fetalPhase (st : RState) (hits : List (String × RuleHit)) :
    List (String × RuleHit) :=
  if st.fetal ≠ [] then fetalListedPhase st (fetalValuePhase st hits)
  else hits

def finalizeHits (st : RState) : List (String × RuleHit) :=
  fetalPhase st (pregPhase st st.hits)

/-- The final field-to-hit map of `apply_rules`. -/
def applyRulesMap (snippets : List Snippet) : List (String × RuleHit) :=
  finalizeHits (snippets.foldl processSnippet ⟨[], [], []⟩)

/-- `apply_rules` from `extract_rules.py`: `list(hits.values())`. -/
def apply_rules (snippets : List Snippet) : List RuleHit :=
  (applyRulesMap snippets).map (·.2)

/-! ## JSON-ish values

Parsed backend responses and the per-document export row hold Python
objects decoded from JSON; `JValue` models them.  Python numbers appear
only in comparisons, `min`/`max` and decimal parsing, so they are
modelled as rationals. -/

/-- A Python value decoded from JSON. -/
inductive JValue where
  | null
  | bool (b : Bool)
  | num (q : ℚ)
  | str (s : String)
  | arr (xs : List JValue)
  | obj (fields : List (String × JValue))
deriving Repr

/-- Python truthiness for `JValue`. -/
def jTruthy : JValue → Bool
  | .null => false
  | .bool b => b
  | .num q => q ≠ 0
  | .str s => s ≠ ""
  | .arr [] => false
  | .arr (_ :: _) => true
  | .obj [] => false
  | .obj (_ :: _) => true

/-- Update an association list in place, appending when the key is new
(Python `d[k] = v`; dict-derived lists have unique keys, so updating the
first occurrence is the dict update). -/
def assocSet {β : Type} : List (String × β) → String → β → List (String × β)
  | [], k, v => [(k, v)]
  | (a, b) :: t, k, v =>
    if a = k then (k, v) :: t else (a, b) :: assocSet t k v

/-- Key lookup in an association list (first occurrence). -/
def assocFind {β : Type} (l : List (String × β)) (k : String) : Option β :=
  (l.find? fun q => q.1 = k).map (·.2)

/-- `d.get(k)` on an association list: `null` stands for Python `None`
when the key is missing. -/
def assocGetD (l : List (String × JValue)) (k : String) : JValue :=
  match assocFind l k with
  | some v => v
  | none => .null

/-- Python `v.get(k)`: an `AttributeError` escapes when `v` is not a
dict. -/
def jGetE (v : JValue) (k : String) : Except String JValue :=
  match v with
  | .obj fs => .ok (assocGetD fs k)
  | _ => .error "AttributeError: get"

/-- Python iteration over a value: lists yield elements, strings yield
one-character strings, dicts yield their keys; other truthy values raise
`TypeError`. -/
def jIterE : JValue → Except String (List JValue)
  | .arr xs => .ok xs
  | .str s => .ok (s.toList.map fun c => .str (String.mk [c]))
  | .obj fs => .ok (fs.map fun q => .str q.1)
  | _ => .error "TypeError: not iterable"

/-- Digit run to a natural number. -/
def digitsToNat (ds : List Char) : Nat :=
  ds.foldl (fun n c => n * 10 + (c.toNat - '0'.toNat)) 0

/-- Exponent/terminator part of Python `float(str)` parsing. -/
def parseExpPart (sign : ℚ) (ip fp rest : List Char) : Option ℚ :=
  let base : ℚ := sign * ((digitsToNat (ip ++ fp) : ℚ) / (10 : ℚ) ^ fp.length)
  match rest with
  | [] => some base
  | e :: r =>
    if e = 'e' ∨ e = 'E' then
      let es : Int × List Char :=
        match r with
        | '+' :: rr => (1, rr)
        | '-' :: rr => (-1, rr)
        | rr => (1, rr)
      let ed := es.2.takeWhile Char.isDigit
      if ed = [] ∨ es.2.drop ed.length ≠ [] then none
      else some (base * (10 : ℚ) ^ (es.1 * (digitsToNat ed : Int)))
    else none

/-- Python `float(str)` for finite decimal literals (optional sign,
digits with optional fraction, optional exponent); the named special
values `inf`/`nan` lie outside the rational model. -/
def parseFloatQ (cs : List Char) : Option ℚ :=
  let cs := pyStrip cs
  let sc : ℚ × List Char :=
    match cs with
    | '+' :: r => (1, r)
    | '-' :: r => (-1, r)
    | r => (1, r)
  let ip := sc.2.takeWhile Char.isDigit
  match sc.2.drop ip.length with
  | '.' :: r =>
    let fp := r.takeWhile Char.isDigit
    if ip = [] ∧ fp = [] then none
    else parseExpPart sc.1 ip fp (r.drop fp.length)
  | rest => if ip = [] then none else parseExpPart sc.1 ip [] rest

/-- Python `float(x)` on a `JValue`: numbers and bools convert, decimal
strings parse; everything else raises. -/
def pyFloatE : JValue → Except String ℚ
  | .num q => .ok q
  | .bool b => .ok (if b then 1 else 0)
  | .str s =>
    match parseFloatQ s.toList with
    | some q => .ok q
    | none => .error "ValueError: float"
  | _ => .error "TypeError: float"

/-! ## LLM filler (`llm_fill.py`) -/

/-- `LLM_FIELDS`. -/
def LLM_FIELDS : List String :=
  ["pregnancy_trimester",
   "birthweight_provided",
   "ga_at_delivery_provided",
   "ga_at_delivery_weeks",
   "ga_at_collection_provided",
   "ga_at_collection_weeks",
   "sex_of_offspring_provided",
   "parity_provided",
   "gravidity_provided",
   "num_offspring_per_pregnancy_provided",
   "race_ethnicity_provided",
   "genetic_ancestry_or_strain_provided",
   "maternal_height_provided",
   "maternal_prepreg_weight_provided",
   "paternal_height_provided",
   "paternal_weight_provided",
   "maternal_age_at_collection_provided",
   "paternal_age_at_collection_provided",
   "samples_from_pregnancy_complications_collected",
   "mode_of_delivery_provided",
   "pregnancy_complications_list",
   "fetal_complications_listed",
   "hospital_center",
   "country_of_collection"]

/-- `_normaliseYesNo` from `llm_fill.py`.  `None` passes through; a string
normalises to `yes`/`no` or `None`; any other value raises
(`value.strip()` on a non-string). -/
def normaliseYesNoE : JValue → Except String JValue
  | .null => .ok .null
  | .str s =>
    let v := String.mk (lowerChars (pyStrip s.toList))
    if v = "yes" ∨ v = "no" then .ok (.str v) else .ok .null
  | _ => .error "AttributeError: strip"

/-- The self-reported confidence as `_post_process` coerces it:
`data.get("confidence") or 0.0`, then `float(...)` with parse failures
caught to `0.0`. -/
def rawConfidence (fs : List (String × JValue)) : ℚ :=
  let confRaw := assocGetD fs "confidence"
  let confVal := if jTruthy confRaw then confRaw else .num 0
  match pyFloatE confVal with
  | .ok q => q
  | .error _ => 0

/-- The cleaned evidence quotes computed by `_post_process`: string
entries, stripped, blank ones dropped, quote glyphs normalised. -/
def processedEvidence (raw : List JValue) : List String :=
  raw.filterMap fun e =>
    match e with
    | .str s =>
      if pyStrip s.toList = [] then none
      else some (String.mk (normalize_quotes (pyStrip s.toList)))
    | _ => none

/-- Python `str.endswith`, over character lists. -/
def strEndsWith (s pat : String) : Bool :=
  beginsWith s.toList.reverse pat.toList.reverse

/-- The `*_provided` normalisation step of `_post_process` for one
taxonomy field. -/
def providedStep (fs : List (String × JValue)) (field : String) :
    Except String (List (String × JValue)) :=
  if strEndsWith field "_provided" then do
    let nv ← normaliseYesNoE (assocGetD fs field)
    pure (assocSet fs field nv)
  else pure fs

/-- `_post_process` from `llm_fill.py`.  Errors model the exceptions of
the Python function (attribute access on non-dicts, iterating a truthy
non-iterable, stripping a non-string `*_provided` value). -/
def post_processE (data : JValue) : Except String JValue :=
  match data with
  | .obj fs =>
    match (if jTruthy (assocGetD fs "evidence_quotes") then
        jIterE (assocGetD fs "evidence_quotes") else Except.ok []) with
    | .error e => .error e
    | .ok ev0 =>
      let evidence := processedEvidence ev0
      let fs := assocSet fs "evidence_quotes" (.arr (evidence.map JValue.str))
      let fs :=
        if evidence ≠ [] then
          assocSet fs "confidence" (.num (max 0 (min 1 (rawConfidence fs))))
        else assocSet fs "confidence" (.num (qlit 3 10))
      match LLM_FIELDS.foldlM providedStep fs with
      | .error e => .error e
      | .ok fs2 => .ok (.obj fs2)
  | _ => .error "AttributeError: get"

/-- An LLM backend as the engine observes it: an availability flag and
the outcome of its one `complete_json` call (`none` when the call
raises). -/
structure Backend where
  available : Bool
  response : Option JValue
deriving Repr

/-- `json.dumps({field: "..." for field in fields}, indent=2)`. -/
def schemaSummary (fields : List String) : String :=
  match fields.dedup with
  | [] => "\x7b\x7d"
  | fs =>
    "\x7b\n" ++
      String.intercalate ",\n" (fs.map fun f => "  \"" ++ f ++ "\": \"...\"") ++
      "\n\x7d"

/-- `_build_user_prompt` from `llm_fill.py`. -/
def build_user_prompt (fields : List String) (snippets : List Snippet) : String :=
  let parts := snippets.enum.map fun q =>
    "--- SNIPPET " ++ toString (q.1 + 1) ++ " (locator: " ++ q.2.locator ++
      " | section: " ++ q.2.section_title ++ ") ---\n" ++ q.2.text
  "TASK: Fill the following fields strictly from the excerpts.\n" ++
    "SCHEMA (names only):\n" ++ schemaSummary fields ++ "\n" ++
    "EXCERPTS:\n" ++ String.intercalate "\n" parts

/-- `float(parsed.get("confidence")) if ... is not None else 0.0` — the
unguarded confidence read of `fill_fields`. -/
def confReadE (v : JValue) : Except String ℚ := do
  let c ← jGetE v "confidence"
  match c with
  | .null => pure 0
  | c => pyFloatE c

/-- `(parsed_fb.get("confidence") or 0)` compared as a number; a
non-numeric value raises (inside the fallback `try`). -/
def fbConfE (v : JValue) : Except String ℚ := do
  let c ← jGetE v "confidence"
  let c := if jTruthy c then c else .num 0
  match c with
  | .num q => .ok q
  | .bool b => .ok (if b then 1 else 0)
  | _ => .error "TypeError: comparison"

/-- The value `fill_fields` returns on success:
`{"values": parsed, "source": "llm"}`. -/
def fillWrap (v : JValue) : JValue :=
  .obj [("values", v), ("source", .str "llm")]

/-- `fill_fields` from `llm_fill.py`.  The second component of the result
is the trace of backend invocations, each with the prompt it was given
(the observable network side effect; the cost-logging sink never affects
the result and is omitted).  `.error` marks an exception escaping the
function. -/
def fill_fields (_gse : String) (cfg : PaperConfig) (snippets : List Snippet)
    (missing_fields : List String)
    (primary_client fallback_client : Option Backend) :
    Except String (JValue × List (String × String)) :=
  if missing_fields = [] ∨ snippets = [] then .ok (.obj [], [])
  else
    match primary_client with
    | none => .ok (.obj [], [])
    | some primary =>
      if ¬primary.available then .ok (.obj [], [])
      else
        let user_prompt := build_user_prompt missing_fields snippets
        let calls := [("primary", user_prompt)]
        match primary.response with
        | none => .ok (.obj [], calls)
        | some parsed =>
          if ¬jTruthy parsed then .ok (.obj [], calls)
          else
            match post_processE parsed with
            | .error e => .error e
            | .ok parsedP =>
              match confReadE parsedP with
              | .error e => .error e
              | .ok confidence =>
                match fallback_client with
                | some f =>
                  if confidence < cfg.escalate_confidence && f.available then
                    let calls := calls ++ [("fallback", user_prompt)]
                    let fbRes : Option (JValue × ℚ) :=
                      match f.response with
                      | none => none
                      | some rawFb =>
                        match post_processE rawFb with
                        | .error _ => none
                        | .ok fbP =>
                          match fbConfE fbP with
                          | .error _ => none
                          | .ok c => some (fbP, c)
                    match fbRes with
                    | some (fbP, cfb) =>
                      if confidence < cfb then .ok (fillWrap fbP, calls)
                      else .ok (fillWrap parsedP, calls)
                    | none => .ok (fillWrap parsedP, calls)
                  else .ok (fillWrap parsedP, calls)
                | none => .ok (fillWrap parsedP, calls)

/-! ## Arbitration / clinical merge (`export_clinical.py`) -/

/-- `CLINICAL_COLUMN_MAP`, in dict order. -/
def CLINICAL_COLUMN_MAP : List (String × String) :=
  [("pregnancy_trimester",
    "Pregnancy trimester (1st, 2nd, 3rd, term (for full-term delivery), premature (for early delivery due to complications)"),
   ("birthweight_provided", "Birthweight of offspring provided (yes/no)"),
   ("ga_at_delivery_provided", "Gestational Age at delivery provided (yes/no)"),
   ("ga_at_delivery_weeks", "GA at delivery (weeks)"),
   ("ga_at_collection_provided",
    "Gestational Age at sample collection provided (yes/no)"),
   ("ga_at_collection_weeks", "GA at sample collection (weeks)"),
   ("sex_of_offspring_provided", "Sex of Offspring Provided (yes/no)"),
   ("parity_provided", "Parity provided (yes/no)"),
   ("gravidity_provided", "Gravidity provided (yes/no)"),
   ("num_offspring_per_pregnancy_provided",
    "Number of offspring per pregnancy provided (yes/no)"),
   ("race_ethnicity_provided",
    "Self-reported race/ethnicity of mother provided (yes/no)"),
   ("genetic_ancestry_or_strain_provided",
    "Genetic ancestry or genetic strain provided (yes/no)"),
   ("maternal_height_provided", "Maternal Height provided (yes/no)"),
   ("maternal_prepreg_weight_provided",
    "Maternal Pre-pregnancy Weight provided (yes/no)"),
   ("paternal_height_provided", "Paternal Height provided (yes/no)"),
   ("paternal_weight_provided", "Paternal Weight provided (yes/no)"),
   ("maternal_age_at_collection_provided",
    "Maternal age at sample collection provided (yes/no)"),
   ("paternal_age_at_collection_provided",
    "Paternal age at sample collection provided (yes/no)"),
   ("samples_from_pregnancy_complications_collected",
    "Samples from pregnancy complications collected"),
   ("mode_of_delivery_provided", "Mode of delivery provided (yes/no)"),
   ("pregnancy_complications_list",
    "Pregnancy complications in data set (list)"),
   ("fetal_complications_listed", "Fetal complications listed (yes/no)"),
   ("fetal_complications", "Fetal complications in data set (list)"),
   ("hospital_center", "Hospital/Center where samples were collected"),
   ("country_of_collection", "Country where samples were collected")]

/-- `YES_NO_FIELDS` (a set; only membership is used). -/
def YES_NO_FIELDS : List String :=
  ["birthweight_provided",
   "ga_at_delivery_provided",
   "ga_at_collection_provided",
   "sex_of_offspring_provided",
   "parity_provided",
   "gravidity_provided",
   "num_offspring_per_pregnancy_provided",
   "race_ethnicity_provided",
   "genetic_ancestry_or_strain_provided",
   "maternal_height_provided",
   "maternal_prepreg_weight_provided",
   "paternal_height_provided",
   "paternal_weight_provided",
   "maternal_age_at_collection_provided",
   "paternal_age_at_collection_provided",
   "samples_from_pregnancy_complications_collected",
   "mode_of_delivery_provided",
   "fetal_complications_listed"]

/-- `EVIDENCE_COLUMN`. -/
def EVIDENCE_COLUMN : String := "Evidence (clinical)"

/-- `SOURCE_COLUMN`. -/
def SOURCE_COLUMN : String := "Source (clinical)"

/-- `CONFIDENCE_COLUMN`. -/
def CONFIDENCE_COLUMN : String := "Confidence (clinical)"

/-- `_normalise_yes_no` from `export_clinical.py`: total over every
Python value; only a truthy string whose stripped lowercase form is
`"yes"` yields `"Yes"`. -/
def normalise_yes_no (value : JValue) : String :=
  if ¬jTruthy value then "No"
  else
    match value with
    | .str s => if String.mk (lowerChars (pyStrip s.toList)) = "yes" then "Yes" else "No"
    | _ => "No"

/-- One entry of the per-field info map the merge builds
(`{"value", "evidence", "source", "locator", "confidence"}`). -/
structure FieldInfo where
  value : JValue
  evidence : String
  source : String
  locator : Option String
  confidence : ℚ
deriving Repr

mutual

/-- Python `str()` of a JSON-decoded value.  Numbers render via the
rational's canonical form and containers via a repr-like rendering —
adequate here because the merge only applies `str()` to values that are
strings on every reachable path, except inside complication lists. -/
def pyStr : JValue → String
  | .null => "None"
  | .bool b => if b then "True" else "False"
  | .num q => if q.den = 1 then toString q.num else toString q
  | .str s => s
  | .arr xs => "[" ++ String.intercalate ", " (pyStrList xs) ++ "]"
  | .obj fs => "\x7b" ++ String.intercalate ", " (fs.map fun q => q.1) ++ "\x7d"

/-- `str()` of each element of a list. -/
def pyStrList : List JValue → List String
  | [] => []
  | v :: vs => pyStr v :: pyStrList vs

end

/-- The per-hit info record the merge seeds from a rule hit. -/
def ruleInfo (hit : RuleHit) : FieldInfo :=
  { value :=
      match hit.value with
      | some v => .str v
      | none => if hit.provided then .str "yes" else .null
    evidence := hit.evidence
    source :=
      match hit.source with
      | some s => if s = "" then "rule" else s
      | none => "rule"
    locator := hit.locator
    confidence := hit.confidence }

/-- The seeding loop of `merge_clinical`: one info entry per rule hit
(later hits for the same field overwrite earlier ones, as in a Python
dict assignment). -/
def seedFieldData (rule_hits : List RuleHit) : List (String × FieldInfo) :=
  rule_hits.foldl (fun fd hit => assocSet fd hit.field (ruleInfo hit)) []

/-- Python `sep.join(x)`: iterate `x`; every element must be a string. -/
def pyJoinE (sep : String) (v : JValue) : Except String String := do
  let items ← jIterE v
  let strs ← items.mapM fun e =>
    match e with
    | .str s => Except.ok s
    | _ => Except.error "TypeError: join"
  pure (String.intercalate sep strs)

/-- `unique_preserve_order` applied to a mixed list (the evidence
consolidation): falsy entries are skipped, truthy non-strings raise. -/
def uniquePreserveOrderE (values : List JValue) : Except String (List String) :=
  go values []
where
  go : List JValue → List (List Char) → Except String (List String)
    | [], _ => .ok []
    | v :: vs, seen =>
      if ¬jTruthy v then go vs seen
      else
        match v with
        | .str s =>
          let key := pyStrip (lowerChars s.toList)
          if seen.contains key then go vs seen
          else do
            let rest ← go vs (key :: seen)
            pure (s :: rest)
        | _ => .error "AttributeError: lower"

/-- The LLM-ingestion loop body of `merge_clinical` for one taxonomy
field. -/
def llmIngestStep (llm_values : JValue) (llm_evidence : JValue)
    (llm_confidence : ℚ) (fd : List (String × FieldInfo))
    (field : String) : Except String (List (String × FieldInfo)) :=
  if (assocFind fd field).isSome then .ok fd
  else
    match jGetE llm_values field with
    | .error e => .error e
    | .ok .null => .ok fd
    | .ok (.str "null") => .ok fd
    | .ok value =>
      match (if jTruthy llm_evidence then pyJoinE "; " llm_evidence
        else Except.ok "LLM inference") with
      | .error e => .error e
      | .ok ev =>
        .ok (assocSet fd field
          { value := value, evidence := ev, source := "llm",
            locator := some "llm", confidence := llm_confidence })

/-- The defaults loop body of `merge_clinical` for one
`(field, column)` pair: write the rendered value into the row and
possibly append a missing-field problem. -/
def defaultsStep (field_data : List (String × FieldInfo))
    (rp : List (String × JValue) × List String) (q : String × String) :
    List (String × JValue) × List String :=
  let info := assocFind field_data q.1
  if YES_NO_FIELDS.contains q.1 then
    let value :=
      match info with
      | some i => normalise_yes_no i.value
      | none => "No"
    (assocSet rp.1 q.2 (.str value), rp.2)
  else
    let value : JValue :=
      match info with
      | some i => i.value
      | none => .str ""
    let value :=
      if q.1 = "pregnancy_complications_list" ∨ q.1 = "fetal_complications" then
        match value with
        | .arr xs =>
          JValue.str
            (String.intercalate ", " (sortedStrings (pyStrList xs).dedup))
        | value => value
      else value
    let row := assocSet rp.1 q.2 (if jTruthy value then value else .str "")
    let probs :=
      if ¬jTruthy value ∧ (q.1 = "pregnancy_trimester" ∨ q.1 = "hospital_center")
      then rp.2 ++ ["Missing " ++ q.2]
      else rp.2
    (row, probs)

/-- The LLM-ingestion phase of `merge_clinical`: on a truthy
`llm_values`, read the overall confidence and raw evidence, then fill
every taxonomy field the rules left open.  Returns
`(llm_confidence, llm_evidence, field_data)`. -/
def llmIngestPhase (llm_values : JValue)
    (field_data : List (String × FieldInfo)) :
    Except String (ℚ × JValue × List (String × FieldInfo)) :=
  if jTruthy llm_values then
    match jGetE llm_values "confidence" with
    | .error e => .error e
    | .ok confRaw =>
      match (if jTruthy confRaw then pyFloatE confRaw
        else Except.ok (0 : ℚ)) with
      | .error e => .error e
      | .ok llm_confidence =>
        match jGetE llm_values "evidence_quotes" with
        | .error e => .error e
        | .ok evRaw =>
          let llm_evidence : JValue := if jTruthy evRaw then evRaw else .arr []
          match (CLINICAL_COLUMN_MAP.map (·.1)).foldlM
              (llmIngestStep llm_values llm_evidence llm_confidence)
              field_data with
          | .error e => .error e
          | .ok fd => .ok (llm_confidence, llm_evidence, fd)
  else .ok ((0 : ℚ), JValue.arr [], field_data)

/-- `llm_result.get("values") if llm_result else {}`. -/
def llmValuesOf : Option (List (String × JValue)) → JValue
  | some (d :: ds) => assocGetD (d :: ds) "values"
  | some [] => .obj []
  | none => .obj []

/-- `merge_clinical` from `export_clinical.py`.  The caller's mutable
`row` and `clinical_problems` are modelled by returning their updated
values; `.error` marks an exception escaping the function. -/
def merge_clinical (row : List (String × JValue)) (rule_hits : List RuleHit)
    (llm_result : Option (List (String × JValue))) (_snippets : List Snippet)
    (clinical_problems : List String) :
    Except String
      (List (String × JValue) × List (String × FieldInfo) × List String) :=
  match llmIngestPhase (llmValuesOf llm_result) (seedFieldData rule_hits) with
  | .error e => .error e
  | .ok state =>
    let llm_evidence := state.2.1
    let field_data := state.2.2
    let rowProbs := CLINICAL_COLUMN_MAP.foldl (defaultsStep field_data)
      (row, clinical_problems)
    let evidences := (field_data.filter fun r => r.2.evidence ≠ "").map
      fun r => JValue.str r.2.evidence
    let sources := (field_data.filter fun r => r.2.source ≠ "").map
      (·.2.source)
    let confidences := field_data.map (·.2.confidence)
    match (if jTruthy llm_evidence then
        (match jIterE llm_evidence with
         | .error e => .error e
         | .ok items => .ok (evidences ++ items))
      else Except.ok evidences) with
    | .error e => .error e
    | .ok evidences2 =>
      match uniquePreserveOrderE evidences2 with
      | .error e => .error e
      | .ok evJoined =>
        .ok (assocSet (assocSet (assocSet rowProbs.1 EVIDENCE_COLUMN
              (.str (String.intercalate "; " evJoined)))
            SOURCE_COLUMN
              (.str (String.intercalate "; "
                (unique_preserve_order sources))))
          CONFIDENCE_COLUMN
            (match confidences with
             | [] => .str ""
             | c :: cs => .num (cs.foldl max c)),
          field_data, rowProbs.2)

/-! ## Association-list lemmas -/

theorem assocFind_assocSet_self {β : Type} (l : List (String × β)) (k : String)
    (v : β) : assocFind (assocSet l k v) k = some v := by
  induction l with
  | nil => simp [assocSet, assocFind]
  | cons a t ih =>
    by_cases h : a.1 = k
    · simp [assocSet, h, assocFind]
    · simp only [assocSet]
      rw [if_neg h]
      simpa [assocFind, List.find?, h] using ih

theorem assocFind_assocSet_ne {β : Type} (l : List (String × β)) (k k' : String)
    (v : β) (h : k' ≠ k) : assocFind (assocSet l k v) k' = assocFind l k' := by
  induction l with
  | nil => simp [assocSet, assocFind, List.find?, Ne.symm h]
  | cons a t ih =>
    by_cases ha : a.1 = k
    · subst ha
      simp [assocSet, assocFind, List.find?, Ne.symm h]
    · simp only [assocSet]
      rw [if_neg ha]
      by_cases ha' : a.1 = k'
      · simp [assocFind, List.find?, ha']
      · simpa [assocFind, List.find?, ha'] using ih

theorem assocGetD_assocSet_self (l : List (String × JValue)) (k : String)
    (v : JValue) : assocGetD (assocSet l k v) k = v := by
  simp [assocGetD, assocFind_assocSet_self]

theorem assocGetD_assocSet_ne (l : List (String × JValue)) (k k' : String)
    (v : JValue) (h : k' ≠ k) :
    assocGetD (assocSet l k v) k' = assocGetD l k' := by
  simp [assocGetD, assocFind_assocSet_ne _ _ _ _ h]

/-- `rawConfidence` only reads the `"confidence"` key. -/
theorem rawConfidence_assocSet_ne (fs : List (String × JValue)) (k : String)
    (v : JValue) (h : k ≠ "confidence") :
    rawConfidence (assocSet fs k v) = rawConfidence fs := by
  simp [rawConfidence, assocGetD_assocSet_ne _ _ _ _ (Ne.symm h)]

/-- The `*_provided` normalisation loop leaves every key that does not
end in `_provided` untouched. -/
theorem providedLoop_getD (fields : List String)
    (fs fs' : List (String × JValue))
    (h : fields.foldlM providedStep fs = .ok fs') (k : String)
    (hk : strEndsWith k "_provided" = false) :
    assocGetD fs' k = assocGetD fs k := by
  induction fields generalizing fs with
  | nil =>
    simp only [List.foldlM] at h
    cases h
    rfl
  | cons f t ih =>
    simp only [List.foldlM] at h
    rcases hstep : providedStep fs f with e | fs1
    · rw [hstep] at h; cases h
    · rw [hstep] at h
      simp only [Bind.bind, Except.bind] at h
      have hmid : assocGetD fs1 k = assocGetD fs k := by
        unfold providedStep at hstep
        by_cases hf : strEndsWith f "_provided"
        · rw [if_pos hf] at hstep
          rcases hnv : normaliseYesNoE (assocGetD fs f) with e | nv
          · rw [hnv] at hstep; cases hstep
          · rw [hnv] at hstep
            simp only [Bind.bind, Except.bind, pure, Except.pure] at hstep
            cases hstep
            have hne : k ≠ f := by
              intro hkf
              rw [hkf] at hk
              rw [hf] at hk
              simp at hk
            exact assocGetD_assocSet_ne _ _ _ _ hne
        · rw [if_neg hf] at hstep
          simp only [pure, Except.pure] at hstep
          cases hstep
          rfl
      rw [ih fs1 h, hmid]

/-! ## Claim theorems: confidence post-processing -/

/-- Shape of any accepted `_post_process` output: a dict whose
`evidence_quotes` holds the cleaned string quotes and whose `confidence`
is the clamped coerced report, or `0.3` without quotes. -/
theorem post_process_shape (fs : List (String × JValue))
    (out : JValue) (h : post_processE (.obj fs) = .ok out) :
    ∃ (es : List String) (fs2 : List (String × JValue)),
      out = .obj fs2 ∧
      assocGetD fs2 "evidence_quotes" = .arr (es.map JValue.str) ∧
      assocGetD fs2 "confidence" =
        .num (if es = [] then qlit 3 10
              else max 0 (min 1 (rawConfidence fs))) := by
  unfold post_processE at h
  dsimp only at h
  rcases hE : (if jTruthy (assocGetD fs "evidence_quotes") then
      jIterE (assocGetD fs "evidence_quotes") else Except.ok []) with e | ev0
  · rw [hE] at h
    cases h
  · rw [hE] at h
    dsimp only at h
    rcases hF : LLM_FIELDS.foldlM providedStep
        (if processedEvidence ev0 ≠ [] then
          assocSet (assocSet fs "evidence_quotes"
            (.arr ((processedEvidence ev0).map JValue.str))) "confidence"
            (.num (max 0 (min 1 (rawConfidence (assocSet fs "evidence_quotes"
              (.arr ((processedEvidence ev0).map JValue.str)))))))
        else
          assocSet (assocSet fs "evidence_quotes"
            (.arr ((processedEvidence ev0).map JValue.str))) "confidence"
            (.num (qlit 3 10))) with e | fs2
    · rw [hF] at h
      cases h
    · rw [hF] at h
      cases h
      refine ⟨processedEvidence ev0, fs2, rfl, ?_, ?_⟩
      · have hpres := providedLoop_getD LLM_FIELDS _ fs2 hF
          "evidence_quotes" (by decide)
        rw [hpres]
        by_cases hne : processedEvidence ev0 ≠ []
        · rw [if_pos hne, assocGetD_assocSet_ne _ _ _ _ (by decide),
            assocGetD_assocSet_self]
        · rw [if_neg hne, assocGetD_assocSet_ne _ _ _ _ (by decide),
            assocGetD_assocSet_self]
      · have hpres := providedLoop_getD LLM_FIELDS _ fs2 hF
          "confidence" (by decide)
        rw [hpres]
        by_cases hee : processedEvidence ev0 = []
        · rw [if_neg (by simpa using hee), assocGetD_assocSet_self,
            if_pos hee]
        · rw [if_pos hee, assocGetD_assocSet_self, if_neg hee,
            rawConfidence_assocSet_ne _ _ _ (by decide)]

/-- Claim C5: for every parsed LLM result that post-processing accepts,
the result's `evidence_quotes` is a list of strings and the resulting
confidence is the reported confidence (coerced, with unparseable values
first becoming `0.0`) clamped to `[0, 1]` when that evidence list is
non-empty, and exactly `0.3` when it is empty, regardless of the raw
reported value. -/
theorem post_process_confidence_policy (fs : List (String × JValue))
    (out : JValue) (h : post_processE (.obj fs) = .ok out) :
    ∃ es : List String,
      jGetE out "evidence_quotes" = .ok (.arr (es.map JValue.str)) ∧
      (es ≠ [] →
        jGetE out "confidence" =
          .ok (.num (max 0 (min 1 (rawConfidence fs))))) ∧
      (es = [] → jGetE out "confidence" = .ok (.num 0.3)) := by
  obtain ⟨es, fs2, hout, hev, hconf⟩ := post_process_shape fs out h
  subst hout
  refine ⟨es, ?_, ?_, ?_⟩
  · show Except.ok (assocGetD fs2 "evidence_quotes") = _
    rw [hev]
  · intro hne
    show Except.ok (assocGetD fs2 "confidence") = _
    rw [hconf, if_neg hne]
  · intro he
    show Except.ok (assocGetD fs2 "confidence") = _
    rw [hconf, if_pos he]
    have : qlit 3 10 = (0.3 : ℚ) := by rw [qlit_eq]; norm_num
    rw [this]

/-- The input of the C5 witness: reported confidence 0.9 with one
non-blank evidence quote. -/
def c5PostIn : List (String × JValue) :=
  [("confidence", .num (qlit 9 10)), ("evidence_quotes", .arr [.str "q"])]

/-- The post-processed output of the C5 witness input. -/
def c5PostOut : JValue :=
  .obj
    [("confidence", .num (qlit 9 10)),
     ("evidence_quotes", .arr [.str "q"]),
     ("birthweight_provided", .null),
     ("ga_at_delivery_provided", .null),
     ("ga_at_collection_provided", .null),
     ("sex_of_offspring_provided", .null),
     ("parity_provided", .null),
     ("gravidity_provided", .null),
     ("num_offspring_per_pregnancy_provided", .null),
     ("race_ethnicity_provided", .null),
     ("genetic_ancestry_or_strain_provided", .null),
     ("maternal_height_provided", .null),
     ("maternal_prepreg_weight_provided", .null),
     ("paternal_height_provided", .null),
     ("paternal_weight_provided", .null),
     ("maternal_age_at_collection_provided", .null),
     ("paternal_age_at_collection_provided", .null),
     ("mode_of_delivery_provided", .null)]

/-- Witness for C5: a reported confidence of 0.9 with a non-empty
evidence list post-processes to exactly 0.9. -/
theorem post_process_confidence_policy_witness :
    ∃ es : List String,
      jGetE c5PostOut "evidence_quotes" = .ok (.arr (es.map JValue.str)) ∧
      (es ≠ [] →
        jGetE c5PostOut "confidence" =
          .ok (.num (max 0 (min 1 (rawConfidence c5PostIn))))) ∧
      (es = [] → jGetE c5PostOut "confidence" = .ok (.num 0.3)) :=
  post_process_confidence_policy c5PostIn c5PostOut (by rfl)

/-! ## Claim theorems: primary-failure behaviour of `fill_fields` -/

/-- A snippet used by the concrete `fill_fields` scenarios. -/
def c1Snip : Snippet :=
  { gse := "GSE1", field_group := "sex", source := "pmc_xml",
    section_title := "", text := "sex of offspring", locator := "offset:0" }

/-- A fallback response that would post-process successfully with high
confidence. -/
def c1GoodResp : JValue :=
  .obj [("confidence", .num (qlit 9 10)), ("evidence_quotes", .arr [.str "q"])]

/-- Counterexample to claim C1: the primary call raises, a fallback is
configured, available, and would yield a usable result, yet
`fill_fields` returns the empty result after invoking only the primary
backend — the fallback is never invoked. -/
theorem fill_fields_no_fallback_on_primary_failure :
    fill_fields "GSE1" DEFAULT_CFG [c1Snip] ["sex_of_offspring_provided"]
        (some { available := true, response := none })
        (some { available := true, response := some c1GoodResp }) =
      .ok (.obj [],
        [("primary",
          build_user_prompt ["sex_of_offspring_provided"] [c1Snip])]) ∧
    (∃ v, post_processE c1GoodResp = .ok v) :=
  ⟨rfl, ⟨_, rfl⟩⟩

/-- Claim C1 (amended): when `missing_fields` and `snippets` are
non-empty, the primary backend is available and its invocation raises,
`fill_fields` returns the empty result immediately, with only the
primary backend invoked — the fallback is not consulted on primary
failure (it is consulted only on a low-confidence primary result). -/
theorem fill_fields_primary_failure_empty
    (gse : String) (cfg : PaperConfig) (snippets : List Snippet)
    (missing : List String) (p : Backend) (fallback : Option Backend)
    (hm : missing ≠ []) (hs : snippets ≠ [])
    (hav : p.available = true) (hresp : p.response = none) :
    fill_fields gse cfg snippets missing (some p) fallback =
      .ok (.obj [], [("primary", build_user_prompt missing snippets)]) := by
  unfold fill_fields
  rw [if_neg (by simp [hm, hs])]
  dsimp only
  rw [if_neg (by simp [hav]), hresp]

/-- Witness for the amended C1 at a concrete input. -/
theorem fill_fields_primary_failure_empty_witness :
    fill_fields "GSE1" DEFAULT_CFG [c1Snip] ["sex_of_offspring_provided"]
        (some { available := true, response := none })
        (some { available := true, response := some c1GoodResp }) =
      .ok (.obj [],
        [("primary",
          build_user_prompt ["sex_of_offspring_provided"] [c1Snip])]) :=
  fill_fields_primary_failure_empty "GSE1" DEFAULT_CFG [c1Snip]
    ["sex_of_offspring_provided"] { available := true, response := none }
    (some { available := true, response := some c1GoodResp })
    (by decide) (by simp) rfl rfl

/-! ## Claim theorems: escalation policy -/

/-- The backend-invocation trace of any `fill_fields` call is empty,
just the primary, or the primary followed by the fallback — each with
the one prompt built for the call. -/
theorem fill_fields_trace_shape (gse : String) (cfg : PaperConfig)
    (sn : List Snippet) (mf : List String) (pc fc : Option Backend)
    (v : JValue) (tr : List (String × String))
    (h : fill_fields gse cfg sn mf pc fc = .ok (v, tr)) :
    tr = [] ∨ tr = [("primary", build_user_prompt mf sn)] ∨
      tr = [("primary", build_user_prompt mf sn),
            ("fallback", build_user_prompt mf sn)] := by
  unfold fill_fields at h
  by_cases h1 : mf = [] ∨ sn = []
  · rw [if_pos h1] at h
    cases h
    left; rfl
  · rw [if_neg h1] at h
    cases pc with
    | none =>
      cases h
      left; rfl
    | some p =>
      dsimp only at h
      by_cases h2 : p.available = true
      · rw [if_neg (by simp [h2])] at h
        cases hr : p.response with
        | none =>
          rw [hr] at h
          cases h
          right; left; rfl
        | some r =>
          rw [hr] at h
          dsimp only at h
          by_cases h3 : jTruthy r = true
          · rw [if_neg (by simp [h3])] at h
            cases hp : post_processE r with
            | error e => rw [hp] at h; cases h
            | ok pp =>
              rw [hp] at h
              dsimp only at h
              cases hc : confReadE pp with
              | error e => rw [hc] at h; cases h
              | ok cc =>
                rw [hc] at h
                dsimp only at h
                cases fc with
                | none =>
                  cases h
                  right; left; rfl
                | some f =>
                  dsimp only at h
                  by_cases h4 :
                      (cc < cfg.escalate_confidence && f.available) = true
                  · rw [if_pos h4] at h
                    rcases hscr : (match f.response with
                      | none => none
                      | some rawFb =>
                        match post_processE rawFb with
                        | .error _ => none
                        | .ok fbP =>
                          match fbConfE fbP with
                          | .error _ => none
                          | .ok c2 => some (fbP, c2)) with _ | ⟨fbP, cfb⟩
                    · rw [hscr] at h
                      dsimp only at h
                      cases h
                      right; right; rfl
                    · rw [hscr] at h
                      dsimp only at h
                      by_cases h5 : cc < cfb
                      · rw [if_pos h5] at h
                        cases h
                        right; right; rfl
                      · rw [if_neg h5] at h
                        cases h
                        right; right; rfl
                  · rw [if_neg h4] at h
                    cases h
                    right; left; rfl
          · rw [if_pos (by simpa using h3)] at h
            cases h
            right; left; rfl
      · rw [if_pos (by simp [h2])] at h
        cases h
        left; rfl

/-- Claim C4: once the primary backend yields a post-processed result
with confidence `c`, the fallback is invoked iff `c` is strictly below
`escalate_confidence` (default 0.60) and a fallback is configured and
available; the invocation reuses the identical prompt, the result with
the strictly higher post-processed confidence is returned (ties keep
the primary), and escalation happens at most once per call. -/
theorem fill_fields_escalation_policy
    (gse : String) (cfg : PaperConfig) (snippets : List Snippet)
    (missing : List String) (p : Backend) (r pp : JValue) (c : ℚ)
    (hm : missing ≠ []) (hs : snippets ≠ [])
    (hav : p.available = true) (hresp : p.response = some r)
    (htr : jTruthy r = true) (hpost : post_processE r = .ok pp)
    (hconf : confReadE pp = .ok c) :
    DEFAULT_CFG.escalate_confidence = 0.60 ∧
    (∀ fallback, ¬c < cfg.escalate_confidence →
      fill_fields gse cfg snippets missing (some p) fallback =
        .ok (fillWrap pp,
          [("primary", build_user_prompt missing snippets)])) ∧
    (fill_fields gse cfg snippets missing (some p) none =
      .ok (fillWrap pp,
        [("primary", build_user_prompt missing snippets)])) ∧
    (∀ f : Backend, f.available = false →
      fill_fields gse cfg snippets missing (some p) (some f) =
        .ok (fillWrap pp,
          [("primary", build_user_prompt missing snippets)])) ∧
    (∀ f : Backend, f.available = true → c < cfg.escalate_confidence →
      (f.response = none →
        fill_fields gse cfg snippets missing (some p) (some f) =
          .ok (fillWrap pp,
            [("primary", build_user_prompt missing snippets),
             ("fallback", build_user_prompt missing snippets)])) ∧
      (∀ rfb qq c2, f.response = some rfb → post_processE rfb = .ok qq →
        fbConfE qq = .ok c2 →
        (c < c2 →
          fill_fields gse cfg snippets missing (some p) (some f) =
            .ok (fillWrap qq,
              [("primary", build_user_prompt missing snippets),
               ("fallback", build_user_prompt missing snippets)])) ∧
        (¬c < c2 →
          fill_fields gse cfg snippets missing (some p) (some f) =
            .ok (fillWrap pp,
              [("primary", build_user_prompt missing snippets),
               ("fallback", build_user_prompt missing snippets)])))) ∧
    (∀ gse2 cfg2 sn2 mf2 pc2 fc2 v tr,
      fill_fields gse2 cfg2 sn2 mf2 pc2 fc2 = .ok (v, tr) →
      (tr.map (·.1)).count "fallback" ≤ 1) := by
  have hbase : ∀ fallback,
      fill_fields gse cfg snippets missing (some p) fallback =
        (match fallback with
         | some f =>
           if c < cfg.escalate_confidence && f.available then
             (match (match f.response with
               | none => none
               | some rawFb =>
                 match post_processE rawFb with
                 | .error _ => none
                 | .ok fbP =>
                   match fbConfE fbP with
                   | .error _ => none
                   | .ok c2 => some (fbP, c2)) with
             | some (fbP, cfb) =>
               if c < cfb then
                 Except.ok (fillWrap fbP,
                   [("primary", build_user_prompt missing snippets),
                    ("fallback", build_user_prompt missing snippets)])
               else
                 Except.ok (fillWrap pp,
                   [("primary", build_user_prompt missing snippets),
                    ("fallback", build_user_prompt missing snippets)])
             | none =>
               Except.ok (fillWrap pp,
                 [("primary", build_user_prompt missing snippets),
                  ("fallback", build_user_prompt missing snippets)]))
           else
             Except.ok (fillWrap pp,
               [("primary", build_user_prompt missing snippets)])
         | none =>
           Except.ok (fillWrap pp,
             [("primary", build_user_prompt missing snippets)])) := by
    intro fallback
    unfold fill_fields
    rw [if_neg (by simp [hm, hs])]
    dsimp only
    rw [if_neg (by simp [hav]), hresp]
    dsimp only
    rw [if_neg (by simp [htr]), hpost]
    dsimp only
    rw [hconf]
    rfl
  refine ⟨by rw [show (0.60 : ℚ) = qlit 3 5 by rw [qlit_eq]; norm_num]; rfl,
    ?_, ?_, ?_, ?_, ?_⟩
  · intro fallback hlt
    rw [hbase]
    cases fallback with
    | none => rfl
    | some f => simp [hlt]
  · rw [hbase]
  · intro f hfav
    rw [hbase]
    simp [hfav]
  · intro f hfav hlt
    constructor
    · intro hfr
      rw [hbase]
      simp [hlt, hfav, hfr]
    · intro rfb qq c2 hfr hq hc2
      constructor
      · intro hwin
        rw [hbase]
        simp only [hfr, hq, hc2]
        simp [hlt, hfav, hwin]
      · intro hlose
        rw [hbase]
        simp only [hfr, hq, hc2]
        simp [hlt, hfav, hlose]
  · intro gse2 cfg2 sn2 mf2 pc2 fc2 v tr h
    rcases fill_fields_trace_shape gse2 cfg2 sn2 mf2 pc2 fc2 v tr h with
      h1 | h1 | h1 <;> subst h1 <;> simp

/-- Primary response reporting confidence 0.4 with evidence. -/
def c4PrimResp : JValue :=
  .obj [("confidence", .num (qlit 2 5)), ("evidence_quotes", .arr [.str "p"])]

/-- Fallback response reporting confidence 0.8 with evidence. -/
def c4FbResp : JValue :=
  .obj [("confidence", .num (qlit 4 5)), ("evidence_quotes", .arr [.str "f"])]

/-- Primary response reporting confidence 0.8 with evidence. -/
def c4PrimHi : JValue :=
  .obj [("confidence", .num (qlit 4 5)), ("evidence_quotes", .arr [.str "p"])]

/-- The post-processed form of `c4PrimResp`. -/
def c4PrimPP : JValue := (post_processE c4PrimResp).toOption.getD .null

/-- The post-processed form of `c4FbResp`. -/
def c4FbPP : JValue := (post_processE c4FbResp).toOption.getD .null

/-- The post-processed form of `c4PrimHi`. -/
def c4HiPP : JValue := (post_processE c4PrimHi).toOption.getD .null

/-- Witness for C4: a 0.4-confidence primary escalates under the default
0.60 threshold and the 0.8-confidence fallback wins; a 0.8-confidence
primary never invokes the fallback. -/
theorem fill_fields_escalation_policy_witness :
    fill_fields "GSE1" DEFAULT_CFG [c1Snip] ["sex_of_offspring_provided"]
        (some { available := true, response := some c4PrimResp })
        (some { available := true, response := some c4FbResp }) =
      .ok (fillWrap c4FbPP,
        [("primary", build_user_prompt ["sex_of_offspring_provided"] [c1Snip]),
         ("fallback",
          build_user_prompt ["sex_of_offspring_provided"] [c1Snip])]) ∧
    fill_fields "GSE1" DEFAULT_CFG [c1Snip] ["sex_of_offspring_provided"]
        (some { available := true, response := some c4PrimHi })
        (some { available := true, response := some c4FbResp }) =
      .ok (fillWrap c4HiPP,
        [("primary",
          build_user_prompt ["sex_of_offspring_provided"] [c1Snip])]) := by
  constructor
  · exact (((fill_fields_escalation_policy "GSE1" DEFAULT_CFG [c1Snip]
      ["sex_of_offspring_provided"]
      { available := true, response := some c4PrimResp } c4PrimResp c4PrimPP
      (qlit 2 5) (by decide) (by simp) rfl rfl (by decide) rfl
      rfl).2.2.2.2.1 { available := true, response := some c4FbResp } rfl
      (by decide)).2 c4FbResp c4FbPP (qlit 4 5) rfl rfl rfl).1 (by decide)
  · exact (fill_fields_escalation_policy "GSE1" DEFAULT_CFG [c1Snip]
      ["sex_of_offspring_provided"]
      { available := true, response := some c4PrimHi } c4PrimHi c4HiPP
      (qlit 4 5) (by decide) (by simp) rfl rfl (by decide) rfl
      rfl).2.1 (some { available := true, response := some c4FbResp })
      (by decide)

/-! ## Claim theorems: exception safety of the entry points -/

/-- Values `_normaliseYesNo` accepts without raising. -/
def isNullOrStr : JValue → Bool
  | .null => true
  | .str _ => true
  | _ => false

/-- Values over which Python iteration succeeds when truthy. -/
def iterableOrFalsy (v : JValue) : Bool :=
  !jTruthy v ||
    (match v with
     | .arr _ => true
     | .str _ => true
     | .obj _ => true
     | _ => false)

/-- A backend response on which `_post_process` completes: a dict whose
`evidence_quotes` is falsy or iterable and whose `*_provided` fields are
strings or `None`/absent. -/
def safeResponse : JValue → Bool
  | .obj fs =>
    iterableOrFalsy (assocGetD fs "evidence_quotes") &&
      LLM_FIELDS.all fun f =>
        !strEndsWith f "_provided" || isNullOrStr (assocGetD fs f)
  | _ => false

theorem normaliseYesNo_ok (v : JValue) (h : isNullOrStr v = true) :
    ∃ nv, normaliseYesNoE v = .ok nv := by
  cases v with
  | null => exact ⟨_, rfl⟩
  | str s =>
    by_cases hv : (String.mk (lowerChars (pyStrip s.toList)) = "yes" ∨
      String.mk (lowerChars (pyStrip s.toList)) = "no")
    · exact ⟨.str (String.mk (lowerChars (pyStrip s.toList))),
        by unfold normaliseYesNoE; dsimp only; rw [if_pos hv]⟩
    · exact ⟨.null,
        by unfold normaliseYesNoE; dsimp only; rw [if_neg hv]⟩
  | bool b => simp [isNullOrStr] at h
  | num q => simp [isNullOrStr] at h
  | arr xs => simp [isNullOrStr] at h
  | obj fs => simp [isNullOrStr] at h

theorem jIterE_ok (v : JValue) (h : iterableOrFalsy v = true)
    (ht : jTruthy v = true) : ∃ xs, jIterE v = .ok xs := by
  cases v <;> simp_all [iterableOrFalsy, jIterE, jTruthy]

theorem providedLoop_ok (fields : List String) (fs : List (String × JValue))
    (hsafe : ∀ f ∈ fields, strEndsWith f "_provided" = true →
      isNullOrStr (assocGetD fs f) = true)
    (hnd : fields.Nodup) :
    ∃ fs2, fields.foldlM providedStep fs = .ok fs2 := by
  induction fields generalizing fs with
  | nil => exact ⟨fs, rfl⟩
  | cons f t ih =>
    rw [List.foldlM_cons]
    by_cases hf : strEndsWith f "_provided" = true
    · obtain ⟨nv, hnv⟩ :=
        normaliseYesNo_ok _ (hsafe f (List.mem_cons_self f t) hf)
      have hstep : providedStep fs f = .ok (assocSet fs f nv) := by
        unfold providedStep
        rw [if_pos hf, hnv]
        try rfl
      rw [hstep]
      have hcond : ∀ g ∈ t, strEndsWith g "_provided" = true →
          isNullOrStr (assocGetD (assocSet fs f nv) g) = true := by
        intro g hg hgp
        have hgf : g ≠ f := by
          intro hh
          subst hh
          exact (List.nodup_cons.mp hnd).1 hg
        rw [assocGetD_assocSet_ne _ _ _ _ hgf]
        exact hsafe g (List.mem_cons_of_mem f hg) hgp
      obtain ⟨fs2, h2⟩ := ih (assocSet fs f nv) hcond (List.Nodup.of_cons hnd)
      exact ⟨fs2, by simpa using h2⟩
    · have hstep : providedStep fs f = .ok fs := by
        unfold providedStep
        rw [if_neg hf]
        rfl
      rw [hstep]
      obtain ⟨fs2, h2⟩ := ih fs
        (fun g hg => hsafe g (List.mem_cons_of_mem f hg))
        (List.Nodup.of_cons hnd)
      exact ⟨fs2, by simpa using h2⟩

theorem post_process_ok (r : JValue) (hr : safeResponse r = true) :
    ∃ pp, post_processE r = .ok pp := by
  cases r with
  | obj fs =>
    simp only [safeResponse, Bool.and_eq_true, List.all_eq_true] at hr
    unfold post_processE
    dsimp only
    rcases hE : (if jTruthy (assocGetD fs "evidence_quotes") then
        jIterE (assocGetD fs "evidence_quotes") else Except.ok []) with e | ev0
    · exfalso
      by_cases ht : jTruthy (assocGetD fs "evidence_quotes") = true
      · rw [if_pos ht] at hE
        obtain ⟨xs, hxs⟩ := jIterE_ok _ hr.1 ht
        rw [hxs] at hE
        cases hE
      · rw [if_neg ht] at hE
        cases hE
    · dsimp only
      have hcond : ∀ f ∈ LLM_FIELDS, strEndsWith f "_provided" = true →
          isNullOrStr (assocGetD
            (if processedEvidence ev0 ≠ [] then
              assocSet (assocSet fs "evidence_quotes"
                (.arr ((processedEvidence ev0).map JValue.str))) "confidence"
                (.num (max 0 (min 1 (rawConfidence (assocSet fs
                  "evidence_quotes"
                  (.arr ((processedEvidence ev0).map JValue.str)))))))
            else
              assocSet (assocSet fs "evidence_quotes"
                (.arr ((processedEvidence ev0).map JValue.str))) "confidence"
                (.num (qlit 3 10))) f) = true := by
        intro f hf hfp
        have hf1 : f ≠ "evidence_quotes" := by
          intro hh
          subst hh
          exact absurd hfp (by decide)
        have hf2 : f ≠ "confidence" := by
          intro hh
          subst hh
          exact absurd hfp (by decide)
        by_cases hne : processedEvidence ev0 ≠ []
        · rw [if_pos hne, assocGetD_assocSet_ne _ _ _ _ hf2,
            assocGetD_assocSet_ne _ _ _ _ hf1]
          exact (Bool.or_eq_true _ _).mp (hr.2 f hf) |>.resolve_left
            (by simp [hfp])
        · rw [if_neg hne, assocGetD_assocSet_ne _ _ _ _ hf2,
            assocGetD_assocSet_ne _ _ _ _ hf1]
          exact (Bool.or_eq_true _ _).mp (hr.2 f hf) |>.resolve_left
            (by simp [hfp])
      obtain ⟨fs2, h2⟩ := providedLoop_ok LLM_FIELDS _ hcond (by decide)
      rw [h2]
      exact ⟨_, rfl⟩
  | null => simp [safeResponse] at hr
  | bool b => simp [safeResponse] at hr
  | num q => simp [safeResponse] at hr
  | str s => simp [safeResponse] at hr
  | arr xs => simp [safeResponse] at hr

theorem confRead_ok_of_post (r pp : JValue)
    (h : post_processE r = .ok pp) : ∃ c, confReadE pp = .ok c := by
  cases r with
  | obj fs =>
    obtain ⟨es, fs2, hout, _, hconf⟩ := post_process_shape fs pp h
    subst hout
    refine ⟨if es = [] then qlit 3 10
      else max 0 (min 1 (rawConfidence fs)), ?_⟩
    unfold confReadE
    simp only [jGetE, Bind.bind, Except.bind, hconf]
    rfl
  | null => simp [post_processE] at h
  | bool b => simp [post_processE] at h
  | num q => simp [post_processE] at h
  | str s => simp [post_processE] at h
  | arr xs => simp [post_processE] at h

/-- A primary response whose `birthweight_provided` field holds a number:
`_normaliseYesNo` calls `.strip()` on it. -/
def c3BadResp : JValue :=
  .obj [("confidence", .num (qlit 1 1)),
        ("evidence_quotes", .arr [.str "q"]),
        ("birthweight_provided", .num (qlit 5 1))]

/-- Counterexample to claim C3: a backend response with a non-string
`*_provided` value makes the post-processing raise, and because
`_post_process` is called outside the `try` block on the primary path,
the exception escapes `fill_fields`. -/
theorem fill_fields_exception_escapes :
    fill_fields "GSE1" DEFAULT_CFG [c1Snip] ["sex_of_offspring_provided"]
        (some { available := true, response := some c3BadResp }) none =
      .error "AttributeError: strip" := rfl

/-- Claim C3 (amended): no exception escapes `fill_fields` provided
every truthy primary response is a dict whose `evidence_quotes` is falsy
or iterable and whose `*_provided` fields are each a string or null;
anomalies inside those bounds (unparseable confidence, non-string
entries inside the evidence list) are coerced to safe defaults.  Outside
them — e.g. a truthy non-string `*_provided` value — the primary-path
post-processing raises (the fallback path catches the same anomalies). -/
theorem fill_fields_safe_total
    (gse : String) (cfg : PaperConfig) (snippets : List Snippet)
    (missing : List String) (pc fc : Option Backend)
    (hsafe : ∀ p r, pc = some p → p.response = some r →
      jTruthy r = true → safeResponse r = true) :
    ∃ res, fill_fields gse cfg snippets missing pc fc = .ok res := by
  unfold fill_fields
  by_cases h1 : missing = [] ∨ snippets = []
  · rw [if_pos h1]
    exact ⟨_, rfl⟩
  · rw [if_neg h1]
    cases pc with
    | none => exact ⟨_, rfl⟩
    | some p =>
      dsimp only
      by_cases h2 : p.available = true
      · rw [if_neg (by simp [h2])]
        cases hr : p.response with
        | none => exact ⟨_, rfl⟩
        | some r =>
          dsimp only
          by_cases h3 : jTruthy r = true
          · rw [if_neg (by simp [h3])]
            obtain ⟨pp, hpp⟩ := post_process_ok r (hsafe p r rfl hr h3)
            rw [hpp]
            dsimp only
            obtain ⟨c, hcc⟩ := confRead_ok_of_post r pp hpp
            rw [hcc]
            dsimp only
            cases fc with
            | none => exact ⟨_, rfl⟩
            | some f =>
              dsimp only
              by_cases h4 : (c < cfg.escalate_confidence && f.available) = true
              · rw [if_pos h4]
                rcases hscr : (match f.response with
                  | none => none
                  | some rawFb =>
                    match post_processE rawFb with
                    | .error _ => none
                    | .ok fbP =>
                      match fbConfE fbP with
                      | .error _ => none
                      | .ok c2 => some (fbP, c2)) with _ | ⟨fbP, cfb⟩
                · rw [hscr]
                  exact ⟨_, rfl⟩
                · rw [hscr]
                  dsimp only
                  by_cases h5 : c < cfb
                  · rw [if_pos h5]
                    exact ⟨_, rfl⟩
                  · rw [if_neg h5]
                    exact ⟨_, rfl⟩
              · rw [if_neg h4]
                exact ⟨_, rfl⟩
          · rw [if_pos (by simpa using h3)]
            exact ⟨_, rfl⟩
      · rw [if_pos (by simp [h2])]
        exact ⟨_, rfl⟩

/-- Witness for the amended C3 at a concrete input. -/
theorem fill_fields_safe_total_witness :
    ∃ res, fill_fields "GSE1" DEFAULT_CFG [c1Snip]
      ["sex_of_offspring_provided"]
      (some { available := true,
              response := some (.obj [("confidence", .num (qlit 1 2))]) })
      none = .ok res :=
  fill_fields_safe_total "GSE1" DEFAULT_CFG [c1Snip]
    ["sex_of_offspring_provided"]
    (some { available := true,
            response := some (.obj [("confidence", .num (qlit 1 2))]) })
    none
    (by
      intro p r hp hr ht
      cases hp
      cases hr
      decide)

/-! ## Merge-layer lemmas -/

theorem seedFold_preserves (t : List RuleHit) (fd : List (String × FieldInfo))
    (k : String) (hk : ∀ h2 ∈ t, h2.field ≠ k) :
    assocFind (t.foldl (fun fd hit => assocSet fd hit.field (ruleInfo hit)) fd)
      k = assocFind fd k := by
  induction t generalizing fd with
  | nil => rfl
  | cons h0 t ih =>
    rw [List.foldl_cons]
    rw [ih _ fun h2 hm => hk h2 (List.mem_cons_of_mem h0 hm)]
    exact assocFind_assocSet_ne _ _ _ _
      fun hh => hk h0 (List.mem_cons_self h0 t) hh.symm

theorem seedFieldData_find_unique (l : List RuleHit) (hit : RuleHit)
    (hmem : hit ∈ l) (huniq : ∀ h2 ∈ l, h2.field = hit.field → h2 = hit) :
    assocFind (seedFieldData l) hit.field = some (ruleInfo hit) := by
  suffices hgen : ∀ (l2 : List RuleHit) (fd0 : List (String × FieldInfo)),
      hit ∈ l2 → (∀ h2 ∈ l2, h2.field = hit.field → h2 = hit) →
      assocFind (l2.foldl (fun fd h => assocSet fd h.field (ruleInfo h)) fd0)
        hit.field = some (ruleInfo hit) from hgen l [] hmem huniq
  intro l2
  induction l2 with
  | nil =>
    intro fd0 hm _
    cases hm
  | cons h0 t ih =>
    intro fd0 hm hu
    rw [List.foldl_cons]
    by_cases hmt : hit ∈ t
    · exact ih _ hmt fun h2 h2m he => hu h2 (List.mem_cons_of_mem h0 h2m) he
    · have h0eq : h0 = hit := by
        rcases List.mem_cons.mp hm with he | hmm
        · exact he.symm
        · exact absurd hmm hmt
      have hnone : ∀ h2 ∈ t, h2.field ≠ hit.field := by
        intro h2 h2m he
        exact hmt ((hu h2 (List.mem_cons_of_mem h0 h2m) he) ▸ h2m)
      rw [seedFold_preserves t _ _ hnone, h0eq, assocFind_assocSet_self]

theorem llmIngest_preserves (fields : List String) (lv le : JValue) (lc : ℚ)
    (fd fd2 : List (String × FieldInfo)) (k : String) (v : FieldInfo)
    (h : fields.foldlM (llmIngestStep lv le lc) fd = .ok fd2)
    (hk : assocFind fd k = some v) : assocFind fd2 k = some v := by
  induction fields generalizing fd with
  | nil =>
    simp only [List.foldlM] at h
    cases h
    exact hk
  | cons f t ih =>
    rw [List.foldlM_cons] at h
    rcases hstep : llmIngestStep lv le lc fd f with e | fd1
    · rw [hstep] at h
      cases h
    · rw [hstep] at h
      simp only [Bind.bind, Except.bind] at h
      refine ih fd1 h ?_
      unfold llmIngestStep at hstep
      by_cases hpres : (assocFind fd f).isSome
      · rw [if_pos hpres] at hstep
        cases hstep
        exact hk
      · rw [if_neg hpres] at hstep
        have hkf : k ≠ f := by
          intro hh
          subst hh
          rw [hk] at hpres
          exact hpres rfl
        have hcases : fd1 = fd ∨ ∃ info, fd1 = assocSet fd f info := by
          split at hstep
          · cases hstep
          · cases hstep
            exact .inl rfl
          · cases hstep
            exact .inl rfl
          · split at hstep
            · cases hstep
            · cases hstep
              exact .inr ⟨_, rfl⟩
        rcases hcases with rfl | ⟨info, rfl⟩
        · exact hk
        · rw [assocFind_assocSet_ne _ _ _ _ hkf]
          exact hk

theorem llmIngestPhase_shape (lv : JValue) (fd0 : List (String × FieldInfo))
    (st : ℚ × JValue × List (String × FieldInfo))
    (h : llmIngestPhase lv fd0 = .ok st) :
    st.2.2 = fd0 ∨
      ∃ le lc, (CLINICAL_COLUMN_MAP.map (·.1)).foldlM
        (llmIngestStep lv le lc) fd0 = .ok st.2.2 := by
  unfold llmIngestPhase at h
  by_cases ht : jTruthy lv = true
  · rw [if_pos ht] at h
    rcases h1 : jGetE lv "confidence" with e | confRaw
    · rw [h1] at h
      cases h
    · rw [h1] at h
      dsimp only at h
      rcases h2 : (if jTruthy confRaw then pyFloatE confRaw
          else Except.ok (0 : ℚ)) with e | lc
      · rw [h2] at h
        cases h
      · rw [h2] at h
        dsimp only at h
        rcases h3 : jGetE lv "evidence_quotes" with e | evRaw
        · rw [h3] at h
          cases h
        · rw [h3] at h
          dsimp only at h
          rcases h4 : (CLINICAL_COLUMN_MAP.map (·.1)).foldlM
              (llmIngestStep lv (if jTruthy evRaw then evRaw else .arr [])
                lc) fd0 with e | fdx
          · rw [h4] at h
            cases h
          · rw [h4] at h
            cases h
            exact .inr ⟨_, _, h4⟩
  · rw [if_neg ht] at h
    cases h
    exact .inl rfl

set_option maxHeartbeats 1000000 in
theorem merge_clinical_shape (row : List (String × JValue))
    (rule_hits : List RuleHit)
    (llm_result : Option (List (String × JValue))) (snippets : List Snippet)
    (problems : List String) (row2 : List (String × JValue))
    (fd : List (String × FieldInfo)) (probs2 : List String)
    (h : merge_clinical row rule_hits llm_result snippets problems =
      .ok (row2, fd, probs2)) :
    (∃ ev src conf : JValue,
      row2 = assocSet (assocSet (assocSet
        (CLINICAL_COLUMN_MAP.foldl (defaultsStep fd) (row, problems)).1
        EVIDENCE_COLUMN ev) SOURCE_COLUMN src) CONFIDENCE_COLUMN conf) ∧
    probs2 = (CLINICAL_COLUMN_MAP.foldl (defaultsStep fd) (row, problems)).2 ∧
    (fd = seedFieldData rule_hits ∨
      ∃ lv le lc, (CLINICAL_COLUMN_MAP.map (·.1)).foldlM
        (llmIngestStep lv le lc) (seedFieldData rule_hits) = .ok fd) := by
  unfold merge_clinical at h
  dsimp only at h
  rcases hph : llmIngestPhase (llmValuesOf llm_result)
      (seedFieldData rule_hits) with e | st
  · rw [hph] at h
    cases h
  · rw [hph] at h
    dsimp only at h
    rcases h5 : (if jTruthy st.2.1 then
        (match jIterE st.2.1 with
         | .error e => .error e
         | .ok items =>
           Except.ok ((((st.2.2.filter fun r => r.2.evidence ≠ "").map
             fun r => JValue.str r.2.evidence)) ++ items))
      else Except.ok ((st.2.2.filter fun r => r.2.evidence ≠ "").map
        fun r => JValue.str r.2.evidence)) with e | evidences2
    · rw [h5] at h
      cases h
    · rw [h5] at h
      dsimp only at h
      split at h
      · cases h
      · have h7 := Except.ok.inj h
        have hrow := congrArg Prod.fst h7
        have hfd := congrArg (fun p =>
          (p : List (String × JValue) × List (String × FieldInfo) ×
            List String).2.1) h7
        have hpr := congrArg (fun p =>
          (p : List (String × JValue) × List (String × FieldInfo) ×
            List String).2.2) h7
        dsimp only at hrow hfd hpr
        rw [← hfd]
        refine ⟨⟨_, _, _, hrow.symm⟩, hpr.symm, ?_⟩
        rcases llmIngestPhase_shape _ _ _ hph with he | ⟨le, lc, hfold⟩
        · exact .inl he
        · exact .inr ⟨_, le, lc, hfold⟩

theorem defaultsStep_fst_ne (fd : List (String × FieldInfo))
    (rp : List (String × JValue) × List String) (q : String × String)
    (k : String) (hk : k ≠ q.2) :
    assocFind (defaultsStep fd rp q).1 k = assocFind rp.1 k := by
  unfold defaultsStep
  dsimp only
  split
  · exact assocFind_assocSet_ne _ _ _ _ hk
  · exact assocFind_assocSet_ne _ _ _ _ hk

theorem defaultsFold_fst_not_mem (L : List (String × String))
    (fd : List (String × FieldInfo))
    (rp : List (String × JValue) × List String) (k : String)
    (hk : ∀ q ∈ L, k ≠ q.2) :
    assocFind (L.foldl (defaultsStep fd) rp).1 k = assocFind rp.1 k := by
  induction L generalizing rp with
  | nil => rfl
  | cons q t ih =>
    rw [List.foldl_cons,
      ih _ fun q2 hm => hk q2 (List.mem_cons_of_mem q hm)]
    exact defaultsStep_fst_ne _ _ _ _ (hk q (List.mem_cons_self q t))

theorem defaultsStep_snd_append (fd : List (String × FieldInfo))
    (rp : List (String × JValue) × List String) (q : String × String) :
    ∃ e, (defaultsStep fd rp q).2 = rp.2 ++ e := by
  unfold defaultsStep
  dsimp only
  repeat' split
  all_goals
    first
      | exact ⟨[], (List.append_nil _).symm⟩
      | exact ⟨_, rfl⟩

theorem defaultsFold_snd_append (L : List (String × String))
    (fd : List (String × FieldInfo))
    (rp : List (String × JValue) × List String) :
    ∃ e, (L.foldl (defaultsStep fd) rp).2 = rp.2 ++ e := by
  induction L generalizing rp with
  | nil => exact ⟨[], (List.append_nil _).symm⟩
  | cons q t ih =>
    rw [List.foldl_cons]
    obtain ⟨e1, he1⟩ := defaultsStep_snd_append fd rp q
    obtain ⟨e2, he2⟩ := ih (defaultsStep fd rp q)
    exact ⟨e1 ++ e2, by rw [he2, he1, List.append_assoc]⟩

theorem normalise_yes_no_cases (v : JValue) :
    normalise_yes_no v = "Yes" ∨ normalise_yes_no v = "No" := by
  cases v with
  | null => exact .inr rfl
  | bool b => cases b <;> exact .inr rfl
  | str s =>
    unfold normalise_yes_no
    split
    · exact .inr rfl
    · dsimp only
      split
      · exact .inl rfl
      · exact .inr rfl
  | num q =>
    unfold normalise_yes_no
    split
    · exact .inr rfl
    · exact .inr rfl
  | arr xs =>
    unfold normalise_yes_no
    split
    · exact .inr rfl
    · exact .inr rfl
  | obj fs =>
    unfold normalise_yes_no
    split
    · exact .inr rfl
    · exact .inr rfl

theorem defaultsStep_yes_no_self (fd : List (String × FieldInfo))
    (rp : List (String × JValue) × List String) (q : String × String)
    (hy : YES_NO_FIELDS.contains q.1 = true) :
    assocFind (defaultsStep fd rp q).1 q.2 =
      some (.str (match assocFind fd q.1 with
        | some i => normalise_yes_no i.value
        | none => "No")) := by
  unfold defaultsStep
  dsimp only
  rw [if_pos hy]
  dsimp only
  rw [assocFind_assocSet_self]

theorem defaultsFold_yes_no (L : List (String × String))
    (fd : List (String × FieldInfo))
    (rp : List (String × JValue) × List String) (f col : String)
    (hmem : (f, col) ∈ L) (hy : YES_NO_FIELDS.contains f = true)
    (hnd : (L.map (·.2)).Nodup) :
    assocFind (L.foldl (defaultsStep fd) rp).1 col =
      some (.str (match assocFind fd f with
        | some i => normalise_yes_no i.value
        | none => "No")) := by
  induction L generalizing rp with
  | nil => cases hmem
  | cons q t ih =>
    rw [List.foldl_cons]
    rcases List.mem_cons.mp hmem with he | hm
    · have hq2 : q.2 = col := by rw [← he]
      have hcol : ∀ q2 ∈ t, col ≠ q2.2 := by
        intro q2 hm2 he2
        have hmm : q.2 ∈ t.map (·.2) := by
          rw [hq2, he2]
          exact List.mem_map_of_mem _ hm2
        exact (List.nodup_cons.mp (by simpa using hnd)).1 hmm
      rw [defaultsFold_fst_not_mem t fd _ col hcol, ← he]
      exact defaultsStep_yes_no_self fd rp (f, col) hy
    · exact ih _ hm (List.Nodup.of_cons (by simpa using hnd))

/-- The clinical output columns are pairwise distinct. -/
theorem clinical_columns_nodup : (CLINICAL_COLUMN_MAP.map (·.2)).Nodup := by
  simp [CLINICAL_COLUMN_MAP]

/-! ## Claim theorems: arbitration -/

/-- Claim C6: every Yes/No-typed field's output column is exactly
`"Yes"` or `"No"` for every possible stored value, and the normaliser
maps a case-insensitive (stripped) `"yes"` string to `"Yes"` and
everything else — other strings, non-strings, absent values — to
`"No"`. -/
theorem merge_yes_no_totality :
    (∀ v : JValue,
      (normalise_yes_no v = "Yes" ∨ normalise_yes_no v = "No") ∧
      (normalise_yes_no v = "Yes" ↔
        ∃ s, v = .str s ∧ String.mk (lowerChars (pyStrip s.toList)) = "yes")) ∧
    (∀ row rule_hits llm_result snippets problems row2 fd probs2 f col,
      merge_clinical row rule_hits llm_result snippets problems =
        .ok (row2, fd, probs2) →
      (f, col) ∈ CLINICAL_COLUMN_MAP → f ∈ YES_NO_FIELDS →
      assocFind row2 col = some (.str "Yes") ∨
        assocFind row2 col = some (.str "No")) := by
  constructor
  · intro v
    constructor
    · exact normalise_yes_no_cases v
    · constructor
      · intro hyes
        cases v with
        | str s =>
          unfold normalise_yes_no at hyes
          split at hyes
          · exact absurd hyes (by decide)
          · dsimp only at hyes
            split at hyes
            · rename_i hs
              exact ⟨s, rfl, hs⟩
            · exact absurd hyes (by decide)
        | null => exact absurd hyes (by decide)
        | bool b =>
          unfold normalise_yes_no at hyes
          split at hyes
          · exact absurd hyes (by decide)
          · dsimp only at hyes
            exact absurd hyes (by decide)
        | num q =>
          unfold normalise_yes_no at hyes
          split at hyes
          · exact absurd hyes (by decide)
          · dsimp only at hyes
            exact absurd hyes (by decide)
        | arr xs =>
          unfold normalise_yes_no at hyes
          split at hyes
          · exact absurd hyes (by decide)
          · dsimp only at hyes
            exact absurd hyes (by decide)
        | obj fs =>
          unfold normalise_yes_no at hyes
          split at hyes
          · exact absurd hyes (by decide)
          · dsimp only at hyes
            exact absurd hyes (by decide)
      · rintro ⟨s, rfl, hs⟩
        unfold normalise_yes_no
        split
        · rename_i hfalsy
          exfalso
          have hs0 : s = "" := by
            by_contra hne
            refine hfalsy ?_
            simp [jTruthy]
            exact hne
          subst hs0
          exact absurd hs (by decide)
        · dsimp only
          rw [if_pos hs]
  · intro row rule_hits llm_result snippets problems row2 fd probs2 f col
      hok hmem hyes
    obtain ⟨⟨ev, src, conf, hrow⟩, _, _⟩ :=
      merge_clinical_shape _ _ _ _ _ _ _ _ hok
    rw [hrow]
    have hall : ∀ q ∈ CLINICAL_COLUMN_MAP,
        q.2 ≠ EVIDENCE_COLUMN ∧ q.2 ≠ SOURCE_COLUMN ∧
          q.2 ≠ CONFIDENCE_COLUMN := by
      intro q hq
      fin_cases hq <;> exact ⟨by decide, by decide, by decide⟩
    obtain ⟨hne1, hne2, hne3⟩ := hall _ hmem
    rw [assocFind_assocSet_ne _ _ _ _ hne3,
      assocFind_assocSet_ne _ _ _ _ hne2,
      assocFind_assocSet_ne _ _ _ _ hne1]
    have hyC : YES_NO_FIELDS.contains f = true :=
      List.elem_eq_true_of_mem hyes
    rw [defaultsFold_yes_no CLINICAL_COLUMN_MAP fd (row, problems) f col hmem
      hyC clinical_columns_nodup]
    rcases hfind : assocFind fd f with _ | i
    · exact .inr rfl
    · dsimp only
      rcases normalise_yes_no_cases i.value with hY | hN
      · exact .inl (by rw [hY])
      · exact .inr (by rw [hN])

/-- The concrete rule hit of the C2 scenario: produced by `apply_rules`
on a snippet whose source kind is `"pmc_xml"`. -/
def c2Hit : RuleHit :=
  { field := "sex_of_offspring_provided", provided := true,
    value := some "yes", evidence := "sex", source := some "pmc_xml",
    locator := some "offset:0" }

/-- An LLM result that also proposes a value for the same field. -/
def c2Llm : List (String × JValue) :=
  [("values", .obj
     [("sex_of_offspring_provided", .str "no"),
      ("confidence", .num (qlit 7 10)),
      ("evidence_quotes", .arr [.str "quote1"])]),
   ("source", .str "llm")]

/-- Counterexample to claim C2 as stated: the merged record for a
rule-hit field carries the rule hit's source tag — here the snippet
source kind `"pmc_xml"`, not `"rule"` — even though it does keep the
rule's value against the competing LLM value. -/
theorem merge_source_tag_counterexample :
    (merge_clinical [] [c2Hit] (some c2Llm) [] []).map
        (fun r => (assocFind r.2.1 "sex_of_offspring_provided").map
          (fun i => (i.source, i.value))) =
      .ok (some ("pmc_xml", .str "yes")) ∧
    ("pmc_xml" : String) ≠ "rule" :=
  ⟨rfl, by decide⟩

/-- Claim C2 (amended): for every field holding a (unique) RuleEngine
hit, the merged record for that field is determined by the rule hit
alone — its value (or `"yes"` when only the provided flag is set), its
evidence, its confidence, and its source tag as recorded by the
RuleEngine (the snippet's source kind, or `"rule"` when the hit carries
none, as aggregates do) — regardless of the LLM result; the LLM's value
never replaces it. -/
theorem merge_rule_dominance
    (row : List (String × JValue)) (rule_hits : List RuleHit)
    (llm_result : Option (List (String × JValue))) (snippets : List Snippet)
    (problems : List String) (row2 : List (String × JValue))
    (fd : List (String × FieldInfo)) (probs2 : List String) (hit : RuleHit)
    (hok : merge_clinical row rule_hits llm_result snippets problems =
      .ok (row2, fd, probs2))
    (hmem : hit ∈ rule_hits)
    (huniq : ∀ h2 ∈ rule_hits, h2.field = hit.field → h2 = hit) :
    assocFind fd hit.field = some (ruleInfo hit) := by
  obtain ⟨_, _, hfd⟩ := merge_clinical_shape _ _ _ _ _ _ _ _ hok
  rcases hfd with rfl | ⟨lv, le, lc, hfold⟩
  · exact seedFieldData_find_unique _ _ hmem huniq
  · exact llmIngest_preserves _ lv le lc _ _ _ _ hfold
      (seedFieldData_find_unique _ _ hmem huniq)

/-- The merge output of the C2 scenario. -/
def c2Out : List (String × JValue) × List (String × FieldInfo) × List String :=
  (merge_clinical [] [c2Hit] (some c2Llm) [] []).toOption.getD ([], [], [])

/-- Witness for the amended C2: the field record of the rule-hit field
is the rule hit's info, LLM result notwithstanding. -/
theorem merge_rule_dominance_witness :
    assocFind c2Out.2.1 c2Hit.field = some (ruleInfo c2Hit) :=
  merge_rule_dominance [] [c2Hit] (some c2Llm) [] [] c2Out.1 c2Out.2.1
    c2Out.2.2 c2Hit rfl (by simp)
    (by
      intro h2 hm he
      simpa using hm)

/-- Claim C10: `merge_clinical` writes only the clinical columns plus
the evidence, source, and confidence columns — every other key of the
caller's row keeps its prior value — and the caller's problems list is
only ever appended to. -/
theorem merge_clinical_frame
    (row : List (String × JValue)) (rule_hits : List RuleHit)
    (llm_result : Option (List (String × JValue))) (snippets : List Snippet)
    (problems : List String) (row2 : List (String × JValue))
    (fd : List (String × FieldInfo)) (probs2 : List String)
    (hok : merge_clinical row rule_hits llm_result snippets problems =
      .ok (row2, fd, probs2)) :
    (∀ k, k ∉ CLINICAL_COLUMN_MAP.map (·.2) →
      k ≠ EVIDENCE_COLUMN → k ≠ SOURCE_COLUMN → k ≠ CONFIDENCE_COLUMN →
      assocFind row2 k = assocFind row k) ∧
    (∃ extra, probs2 = problems ++ extra) := by
  obtain ⟨⟨ev, src, conf, hrow⟩, hprobs, _⟩ :=
    merge_clinical_shape _ _ _ _ _ _ _ _ hok
  constructor
  · intro k hk hk1 hk2 hk3
    rw [hrow, assocFind_assocSet_ne _ _ _ _ hk3,
      assocFind_assocSet_ne _ _ _ _ hk2, assocFind_assocSet_ne _ _ _ _ hk1]
    exact defaultsFold_fst_not_mem CLINICAL_COLUMN_MAP fd (row, problems) k
      fun q hq he => hk (he ▸ List.mem_map_of_mem _ hq)
  · rw [hprobs]
    exact defaultsFold_snd_append CLINICAL_COLUMN_MAP fd (row, problems)

/-- The merge output of the C10 scenario: a row with an unrelated
pre-existing key and a pre-existing problems entry. -/
def c10Out : List (String × JValue) × List (String × FieldInfo) ×
    List String :=
  (merge_clinical [("Other", .str "keep")] [c2Hit] (some c2Llm) []
    ["pre-existing"]).toOption.getD ([], [], [])

/-- Witness for C10 at a concrete input: the unrelated `"Other"` key is
untouched and the problems list is extended, not rewritten. -/
theorem merge_clinical_frame_witness :
    assocFind c10Out.1 "Other" =
      assocFind [("Other", JValue.str "keep")] "Other" ∧
    (∃ extra, c10Out.2.2 = ["pre-existing"] ++ extra) :=
  ⟨(merge_clinical_frame [("Other", .str "keep")] [c2Hit] (some c2Llm) []
      ["pre-existing"] c10Out.1 c10Out.2.1 c10Out.2.2 rfl).1 "Other"
      (by decide) (by decide) (by decide) (by decide),
   (merge_clinical_frame [("Other", .str "keep")] [c2Hit] (some c2Llm) []
      ["pre-existing"] c10Out.1 c10Out.2.1 c10Out.2.2 rfl).2⟩

/-- The merge output of the C6 scenario. -/
def c6Out : List (String × JValue) × List (String × FieldInfo) ×
    List String :=
  (merge_clinical [] [c2Hit] (some c2Llm) [] []).toOption.getD ([], [], [])

/-- Witness for C6 at a concrete input: the Yes/No column of the
rule-hit field resolves to exactly Yes or No. -/
theorem merge_yes_no_totality_witness :
    assocFind c6Out.1 "Sex of Offspring Provided (yes/no)" =
      some (.str "Yes") ∨
    assocFind c6Out.1 "Sex of Offspring Provided (yes/no)" =
      some (.str "No") :=
  merge_yes_no_totality.2 [] [c2Hit] (some c2Llm) [] [] c6Out.1 c6Out.2.1
    c6Out.2.2 "sex_of_offspring_provided"
    "Sex of Offspring Provided (yes/no)" rfl (by decide) (by decide)

/-! ## Rule-engine lemmas: accumulation discipline -/

/-- Well-formedness of the hit map: one entry per field, with the entry's
`field` equal to its key. -/
def goodHits (m : List (String × RuleHit)) : Prop :=
  (m.map (·.1)).Nodup ∧ ∀ q ∈ m, q.2.field = q.1

/-- The ordering in which the rule engine grows its hit map: existing
entries are preserved exactly, and well-formedness is maintained. -/
def hitsLe (m m2 : List (String × RuleHit)) : Prop :=
  (∀ k v, assocFind m k = some v → assocFind m2 k = some v) ∧
  (goodHits m → goodHits m2)

theorem hitsLe_refl (m : List (String × RuleHit)) : hitsLe m m :=
  ⟨fun _ _ h => h, id⟩

theorem hitsLe_trans {m1 m2 m3 : List (String × RuleHit)}
    (h1 : hitsLe m1 m2) (h2 : hitsLe m2 m3) : hitsLe m1 m3 :=
  ⟨fun k v h => h2.1 k v (h1.1 k v h), fun g => h2.2 (h1.2 g)⟩

theorem assocFind_append_left (m m2 : List (String × RuleHit)) (k : String)
    (v : RuleHit) (h : assocFind m k = some v) :
    assocFind (m ++ m2) k = some v := by
  induction m with
  | nil => cases h
  | cons a t ih =>
    unfold assocFind at h ⊢
    rw [List.cons_append, List.find?_cons] at *
    split at h
    · exact h
    · exact ih h

theorem hitsLe_add_hit (m : List (String × RuleHit)) (k : String)
    (v : Option String) (e src loc : String) (p : Bool) :
    hitsLe m (add_hit m k v e src loc p) := by
  unfold add_hit
  split
  · exact hitsLe_refl m
  · rename_i hnc
    constructor
    · intro k2 v2 h2
      exact assocFind_append_left _ _ _ _ h2
    · intro ⟨hnd, hfm⟩
      constructor
      · rw [List.map_append]
        apply List.Nodup.append hnd (by simp)
        intro a ha hb
        simp only [List.map_cons, List.map_nil, List.mem_singleton] at hb
        refine hnc ?_
        unfold hitsContains
        rcases List.mem_map.mp ha with ⟨q, hq, hqk⟩
        have hsome : (m.find? fun r => r.1 = k).isSome := by
          rw [List.find?_isSome]
          exact ⟨q, hq, by simp [hqk, hb]⟩
        simpa using hsome
      · intro q hq
        rcases List.mem_append.mp hq with hq1 | hq2
        · exact hfm q hq1
        · simp only [List.mem_singleton] at hq2
          subst hq2
          rfl

theorem trimesterStep_le (m : List (String × RuleHit)) (snip : Snippet) :
    hitsLe m (trimesterStep m snip) := by
  unfold trimesterStep
  split
  · exact hitsLe_refl m
  · split
    · exact hitsLe_add_hit _ _ _ _ _ _ _
    · exact hitsLe_refl m

theorem gaDeliveryStep_le (m : List (String × RuleHit)) (snip : Snippet) :
    hitsLe m (gaDeliveryStep m snip) := by
  unfold gaDeliveryStep
  split
  · exact hitsLe_refl m
  · split
    · exact hitsLe_trans (hitsLe_add_hit _ _ _ _ _ _ _)
        (hitsLe_add_hit _ _ _ _ _ _ _)
    · exact hitsLe_refl m

theorem gaCollectionStep_le (m : List (String × RuleHit)) (snip : Snippet) :
    hitsLe m (gaCollectionStep m snip) := by
  unfold gaCollectionStep
  split
  · exact hitsLe_refl m
  · split
    · exact hitsLe_trans (hitsLe_add_hit _ _ _ _ _ _ _)
        (hitsLe_add_hit _ _ _ _ _ _ _)
    · exact hitsLe_refl m

theorem birthweightStep_le (m : List (String × RuleHit)) (snip : Snippet) :
    hitsLe m (birthweightStep m snip) := by
  unfold birthweightStep
  split
  · exact hitsLe_refl m
  · split
    · exact hitsLe_add_hit _ _ _ _ _ _ _
    · exact hitsLe_refl m

theorem presenceStep_le (snip : Snippet) (m : List (String × RuleHit))
    (fp : String × List Atom) : hitsLe m (presenceStep snip m fp) := by
  unfold presenceStep
  split
  · exact hitsLe_refl m
  · split
    · exact hitsLe_add_hit _ _ _ _ _ _ _
    · exact hitsLe_refl m

theorem presenceFold_le (L : List (String × List Atom)) (snip : Snippet)
    (m : List (String × RuleHit)) :
    hitsLe m (L.foldl (presenceStep snip) m) := by
  induction L generalizing m with
  | nil => exact hitsLe_refl m
  | cons fp t ih =>
    rw [List.foldl_cons]
    exact hitsLe_trans (presenceStep_le snip m fp) (ih _)

theorem keywordStep_le (field : String) (keywords : List String)
    (m : List (String × RuleHit)) (snip : Snippet) :
    hitsLe m (keywordStep field keywords m snip) := by
  unfold keywordStep
  split
  · exact hitsLe_refl m
  · split
    · exact hitsLe_add_hit _ _ _ _ _ _ _
    · exact hitsLe_refl m

theorem siteStep_le (m : List (String × RuleHit)) (snip : Snippet) :
    hitsLe m (siteStep m snip) := by
  unfold siteStep
  split
  · exact hitsLe_refl m
  · split
    · exact hitsLe_refl m
    · dsimp only
      split
      · exact hitsLe_trans (hitsLe_add_hit _ _ _ _ _ _ _)
          (hitsLe_add_hit _ _ _ _ _ _ _)
      · exact hitsLe_add_hit _ _ _ _ _ _ _

theorem processSnippet_le (st : RState) (snip : Snippet) :
    hitsLe st.hits (processSnippet st snip).hits := by
  unfold processSnippet
  dsimp only
  exact hitsLe_trans (trimesterStep_le _ _) (hitsLe_trans
    (gaDeliveryStep_le _ _) (hitsLe_trans (gaCollectionStep_le _ _)
      (hitsLe_trans (birthweightStep_le _ _) (hitsLe_trans
        (presenceFold_le _ _ _) (hitsLe_trans (keywordStep_le _ _ _ _)
          (hitsLe_trans (keywordStep_le _ _ _ _) (hitsLe_trans
            (keywordStep_le _ _ _ _) (siteStep_le _ _))))))))

theorem processFold_le (l : List Snippet) (st : RState) :
    hitsLe st.hits ((l.foldl processSnippet st).hits) := by
  induction l generalizing st with
  | nil => exact hitsLe_refl _
  | cons snip t ih =>
    rw [List.foldl_cons]
    exact hitsLe_trans (processSnippet_le st snip) (ih _)

theorem pregPhase_le (st : RState) (m : List (String × RuleHit)) :
    hitsLe m (pregPhase st m) := by
  unfold pregPhase
  split
  · exact hitsLe_trans (hitsLe_add_hit _ _ _ _ _ _ _)
      (hitsLe_add_hit _ _ _ _ _ _ _)
  · exact hitsLe_refl m

theorem fetalValuePhase_le (st : RState) (m : List (String × RuleHit)) :
    hitsLe m (fetalValuePhase st m) := by
  unfold fetalValuePhase
  split
  · exact hitsLe_add_hit _ _ _ _ _ _ _
  · exact hitsLe_refl m

theorem fetalListedPhase_le (st : RState) (m : List (String × RuleHit)) :
    hitsLe m (fetalListedPhase st m) := by
  unfold fetalListedPhase
  split
  · exact hitsLe_add_hit _ _ _ _ _ _ _
  · exact hitsLe_refl m

theorem fetalPhase_le (st : RState) (m : List (String × RuleHit)) :
    hitsLe m (fetalPhase st m) := by
  unfold fetalPhase
  split
  · exact hitsLe_trans (fetalValuePhase_le st m) (fetalListedPhase_le st _)
  · exact hitsLe_refl m

theorem finalizeHits_le (st : RState) : hitsLe st.hits (finalizeHits st) := by
  unfold finalizeHits
  exact hitsLe_trans (pregPhase_le st st.hits) (fetalPhase_le st _)

theorem goodHits_nil : goodHits [] :=
  ⟨List.nodup_nil, fun q hq => absurd hq (List.not_mem_nil q)⟩

theorem applyRulesMap_good (snippets : List Snippet) :
    goodHits (applyRulesMap snippets) := by
  unfold applyRulesMap
  exact (finalizeHits_le _).2 ((processFold_le snippets ⟨[], [], []⟩).2 goodHits_nil)

theorem apply_rules_fields_eq (snippets : List Snippet) :
    (apply_rules snippets).map (·.field) =
      (applyRulesMap snippets).map (·.1) := by
  unfold apply_rules
  rw [List.map_map]
  exact List.map_congr_left fun q hq => (applyRulesMap_good snippets).2 q hq

/-- Snippets used to exhibit the first-writer-wins behaviour of the rule
engine at a concrete input: both match a trimester pattern, the first
with value `1st`, the second with value `2nd`. -/
def c7SnipA : Snippet :=
  { gse := "GSE1", field_group := "ga_trimester", source := "pmc_xml",
    section_title := "Methods", text := "Sampling in the first trimester.",
    locator := "offset:0" }

def c7SnipB : Snippet :=
  { gse := "GSE1", field_group := "ga_trimester", source := "pmc_xml",
    section_title := "Methods", text := "Sampling in the second trimester.",
    locator := "offset:200" }

/-- The engine state after processing `c7SnipA` alone. -/
def c7Fold : RState := [c7SnipA].foldl processSnippet ⟨[], [], []⟩

/-- The hit recorded for `pregnancy_trimester` by `c7SnipA`. -/
def c7Hit : RuleHit :=
  (assocFind c7Fold.hits "pregnancy_trimester").getD
    { field := "", provided := false, value := none, evidence := "" }

/-- C7: `apply_rules` returns at most one hit per field name (the returned
field names are pairwise distinct); a hit present in the accumulator after
any prefix of the snippet list is still the hit returned for that field
after the remaining snippets are processed and the aggregate phase runs
(first writer wins); and the primitive `_add_hit` never changes the entry
of a field that already has one. -/
theorem apply_rules_first_writer_wins :
    (∀ snippets : List Snippet,
      ((apply_rules snippets).map (·.field)).Nodup) ∧
    (∀ s1 s2 : List Snippet, ∀ f : String, ∀ h : RuleHit,
      assocFind ((s1.foldl processSnippet ⟨[], [], []⟩).hits) f = some h →
      assocFind (applyRulesMap (s1 ++ s2)) f = some h) ∧
    (∀ (m : List (String × RuleHit)) (k : String) (v : Option String)
      (e src loc : String) (p : Bool) (k2 : String) (v2 : RuleHit),
      assocFind m k2 = some v2 →
      assocFind (add_hit m k v e src loc p) k2 = some v2) := by
  refine ⟨fun snippets => ?_, fun s1 s2 f h hf => ?_,
    fun m k v e src loc p k2 v2 h2 => ?_⟩
  · rw [apply_rules_fields_eq]
    exact (applyRulesMap_good snippets).1
  · unfold applyRulesMap
    rw [List.foldl_append]
    exact (finalizeHits_le _).1 f h ((processFold_le s2 _).1 f h hf)
  · exact (hitsLe_add_hit m k v e src loc p).1 k2 v2 h2

set_option maxRecDepth 8000 in
/-- The first-writer-wins theorem at a concrete input: `c7SnipA` records
value `1st`, and neither the later snippet `c7SnipB` (matching `2nd`) nor
a direct later `_add_hit` with value `2nd` changes the stored hit. -/
theorem apply_rules_first_writer_wins_witness :
    (assocFind c7Fold.hits "pregnancy_trimester" = some c7Hit ∧
      c7Hit.value = some "1st") ∧
    assocFind (applyRulesMap ([c7SnipA] ++ [c7SnipB])) "pregnancy_trimester"
      = some c7Hit ∧
    assocFind (add_hit c7Fold.hits "pregnancy_trimester" (some "2nd")
      "second trimester" "pmc_xml" "offset:200" true) "pregnancy_trimester"
      = some c7Hit :=
  ⟨⟨rfl, rfl⟩,
    apply_rules_first_writer_wins.2.1 [c7SnipA] [c7SnipB]
      "pregnancy_trimester" c7Hit rfl,
    apply_rules_first_writer_wins.2.2 c7Fold.hits "pregnancy_trimester"
      (some "2nd") "second trimester" "pmc_xml" "offset:200" true
      "pregnancy_trimester" c7Hit rfl⟩

/-! ## The country-of-collection policy of the site block -/

theorem assocFind_eq_none_iff (m : List (String × RuleHit)) (k : String) :
    assocFind m k = none ↔ hitsContains m k = false := by
  unfold assocFind hitsContains
  cases m.find? fun q => q.1 = k <;> simp

theorem assocFind_append_one (m : List (String × RuleHit)) (k k2 : String)
    (v : RuleHit) (hnone : assocFind m k2 = none) :
    assocFind (m ++ [(k, v)]) k2 = if k = k2 then some v else none := by
  induction m with
  | nil =>
    unfold assocFind
    simp only [List.nil_append, List.find?_cons, List.find?_nil]
    split <;> rename_i hd <;> simp at hd <;> simp [hd]
  | cons a t ih =>
    unfold assocFind at hnone ⊢
    rw [List.cons_append, List.find?_cons] at *
    split at hnone
    · simp at hnone
    · exact ih hnone

/-- C9: whenever the site pattern matches a snippet (and neither site field
is already set), a `country_of_collection` hit is created if and only if
SOME comma-separated token of the cleaned captured location - not
necessarily the tail token - matches the country list case-insensitively,
and the hit's value is the RIGHTMOST matching token (the first hit of the
reversed token scan). -/
theorem siteStep_country_policy (hits : List (String × RuleHit))
    (snip : Snippet) (m : RMatch)
    (hnc : hitsContains hits "hospital_center" = false)
    (hncc : hitsContains hits "country_of_collection" = false)
    (hm : reSearch SITE_RE snip.text.toList = some m) :
    ((∃ h, assocFind (siteStep hits snip) "country_of_collection" = some h) ↔
      ∃ t ∈ (splitComma (clean_text (m.group 2))).map pyStrip,
        COUNTRY_LIST.contains (String.mk (lowerChars t)) = true) ∧
    ∀ h, assocFind (siteStep hits snip) "country_of_collection" = some h →
      ∃ tok,
        ((splitComma (clean_text (m.group 2))).map pyStrip).reverse.find?
          (fun t => COUNTRY_LIST.contains (String.mk (lowerChars t)))
            = some tok ∧
        h.value = some (String.mk tok) := by
  have hfnone : assocFind hits "country_of_collection" = none :=
    (assocFind_eq_none_iff _ _).mpr hncc
  unfold siteStep
  rw [hnc]
  simp only [Bool.false_eq_true, if_false]
  rw [hm]
  dsimp only
  have hadd : add_hit hits "hospital_center"
      (some (String.mk (clean_text (m.group 2)))) (String.mk m.matched)
      snip.source snip.locator
      = hits ++ [("hospital_center",
        { field := "hospital_center", provided := true
          value := some (String.mk (clean_text (m.group 2)))
          evidence := String.mk (clean_text (String.mk m.matched).toList)
          source := some snip.source
          locator := some snip.locator })] := by
    unfold add_hit
    rw [hnc]
    simp only [Bool.false_eq_true, if_false]
  rw [hadd]
  have hfnone2 : assocFind (hits ++ [("hospital_center",
      { field := "hospital_center", provided := true
        value := some (String.mk (clean_text (m.group 2)))
        evidence := String.mk (clean_text (String.mk m.matched).toList)
        source := some snip.source
        locator := some snip.locator })]) "country_of_collection" = none := by
    rw [assocFind_append_one _ _ _ _ hfnone]
    simp
  rcases hfind : (((splitComma (clean_text (m.group 2))).map
        pyStrip).reverse.find?
      fun t => COUNTRY_LIST.contains (String.mk (lowerChars t)))
    with _ | tok
  · dsimp only
    constructor
    · constructor
      · intro ⟨h, hh⟩
        rw [hfnone2] at hh
        cases hh
      · intro ⟨t, ht, hp⟩
        have hnm := List.find?_eq_none.mp hfind t (List.mem_reverse.mpr ht)
        rw [hp] at hnm
        cases hnm rfl
    · intro h hh
      rw [hfnone2] at hh
      cases hh
  · dsimp only
    have hncc2 : hitsContains (hits ++ [("hospital_center",
        { field := "hospital_center", provided := true
          value := some (String.mk (clean_text (m.group 2)))
          evidence := String.mk (clean_text (String.mk m.matched).toList)
          source := some snip.source
          locator := some snip.locator })]) "country_of_collection"
        = false := (assocFind_eq_none_iff _ _).mp hfnone2
    have haddc : add_hit (hits ++ [("hospital_center",
        { field := "hospital_center", provided := true
          value := some (String.mk (clean_text (m.group 2)))
          evidence := String.mk (clean_text (String.mk m.matched).toList)
          source := some snip.source
          locator := some snip.locator })]) "country_of_collection"
        (some (String.mk tok)) (String.mk m.matched) snip.source snip.locator
        = (hits ++ [("hospital_center",
          { field := "hospital_center", provided := true
            value := some (String.mk (clean_text (m.group 2)))
            evidence := String.mk (clean_text (String.mk m.matched).toList)
            source := some snip.source
            locator := some snip.locator })]) ++ [("country_of_collection",
          { field := "country_of_collection", provided := true
            value := some (String.mk tok)
            evidence := String.mk (clean_text (String.mk m.matched).toList)
            source := some snip.source
            locator := some snip.locator })] := by
      unfold add_hit
      rw [hncc2]
      simp only [Bool.false_eq_true, if_false]
    rw [haddc]
    have hfound : assocFind ((hits ++ [("hospital_center",
        { field := "hospital_center", provided := true
          value := some (String.mk (clean_text (m.group 2)))
          evidence := String.mk (clean_text (String.mk m.matched).toList)
          source := some snip.source
          locator := some snip.locator })]) ++ [("country_of_collection",
        { field := "country_of_collection", provided := true
          value := some (String.mk tok)
          evidence := String.mk (clean_text (String.mk m.matched).toList)
          source := some snip.source
          locator := some snip.locator })]) "country_of_collection"
        = some
          { field := "country_of_collection", provided := true
            value := some (String.mk tok)
            evidence := String.mk (clean_text (String.mk m.matched).toList)
            source := some snip.source
            locator := some snip.locator } := by
      rw [assocFind_append_one _ _ _ _ hfnone2]
      simp
    constructor
    · constructor
      · intro _
        rcases List.find?_some hfind with hp
        have hmem := List.mem_reverse.mp (List.mem_of_find?_eq_some hfind)
        exact ⟨tok, hmem, hp⟩
      · intro _
        exact ⟨_, hfound⟩
    · intro h hh
      rw [hfound] at hh
      refine ⟨tok, rfl, ?_⟩
      rw [← Option.some.inj hh]

/-- A site snippet whose captured location is
`Hospital A, China, Ward 9`: the tail token `Ward 9` is not a country,
but the scan from the tail backwards reaches `China`. -/
def c9Snip : Snippet :=
  { gse := "GSE9", field_group := "site", source := "pmc_xml",
    section_title := "Methods",
    text := "Samples were collected at Hospital A, China, Ward 9.",
    locator := "offset:0" }

/-- The concrete `SITE_RE` match on `c9Snip`. -/
def c9M : RMatch := (reSearch SITE_RE c9Snip.text.toList).getD ⟨0, [], []⟩

set_option maxRecDepth 8000 in
/-- C9 counterexample: on `c9Snip`, `apply_rules` creates a
`country_of_collection` hit with value `China`, although the TAIL token of
the captured location's comma-separated split is `Ward 9`, which does not
match the country list - refuting the claim that a hit is created only
when the tail token matches. -/
theorem site_country_not_tail_token :
    ((apply_rules [c9Snip]).find?
        (fun h => h.field = "country_of_collection")).map (fun h => h.value)
      = some (some "China") ∧
    ((splitComma (clean_text (c9M.group 2))).map pyStrip).getLast?
      = some "Ward 9".toList ∧
    COUNTRY_LIST.contains (String.mk (lowerChars "Ward 9".toList)) = false :=
  ⟨rfl, rfl, rfl⟩

set_option maxRecDepth 8000 in
/-- The country policy theorem instantiated at `c9Snip` with an empty hit
map, every hypothesis discharged by evaluation. -/
theorem siteStep_country_policy_witness :
    ((∃ h, assocFind (siteStep [] c9Snip) "country_of_collection" = some h) ↔
      ∃ t ∈ (splitComma (clean_text (c9M.group 2))).map pyStrip,
        COUNTRY_LIST.contains (String.mk (lowerChars t)) = true) ∧
    ∀ h, assocFind (siteStep [] c9Snip) "country_of_collection" = some h →
      ∃ tok,
        ((splitComma (clean_text (c9M.group 2))).map pyStrip).reverse.find?
          (fun t => COUNTRY_LIST.contains (String.mk (lowerChars t)))
            = some tok ∧
        h.value = some (String.mk tok) :=
  siteStep_country_policy [] c9Snip c9M rfl rfl rfl

/-! ## Snippet selection: ordering, filtering and capping -/

/-- The order in which one field group's retained windows appear:
strictly higher score first, ties by strictly smaller offset. -/
def swOrd (a b : Nat × Nat × List Char) : Prop :=
  b.1 < a.1 ∨ (b.1 = a.1 ∧ a.2.1 < b.2.1)

theorem insort_perm (x : Nat × Nat × List Char)
    (acc : List (Nat × Nat × List Char)) :
    (insortByScore x acc).Perm (x :: acc) := by
  induction acc with
  | nil => exact List.Perm.refl _
  | cons y ys ih =>
    unfold insortByScore
    split
    · exact List.Perm.refl _
    · exact List.Perm.trans (List.Perm.cons y ih) (List.Perm.swap x y ys)

theorem sortFold_perm (l acc : List (Nat × Nat × List Char)) :
    (l.foldl (fun a x => insortByScore x a) acc).Perm (acc ++ l) := by
  induction l generalizing acc with
  | nil => simp
  | cons x t ih =>
    rw [List.foldl_cons]
    refine (ih (insortByScore x acc)).trans ?_
    refine (List.Perm.append_right t (insort_perm x acc)).trans ?_
    exact List.perm_middle.symm

theorem sortByScoreDesc_perm (l : List (Nat × Nat × List Char)) :
    (sortByScoreDesc l).Perm l := by
  unfold sortByScoreDesc
  simpa using sortFold_perm l []

theorem insort_pairwise (x : Nat × Nat × List Char)
    (acc : List (Nat × Nat × List Char)) (hp : acc.Pairwise swOrd)
    (hta : ∀ y ∈ acc, y.1 = x.1 → y.2.1 < x.2.1) :
    (insortByScore x acc).Pairwise swOrd := by
  induction acc with
  | nil =>
    unfold insortByScore
    exact List.pairwise_singleton _ _
  | cons y ys ih =>
    unfold insortByScore
    split
    · rename_i hlt
      refine List.Pairwise.cons ?_ hp
      intro z hz
      rcases List.mem_cons.mp hz with rfl | hz2
      · exact Or.inl hlt
      · rcases List.rel_of_pairwise_cons hp hz2 with h | ⟨he, _⟩
        · exact Or.inl (lt_trans h hlt)
        · exact Or.inl (he ▸ hlt)
    · rename_i hnlt
      refine List.Pairwise.cons ?_
        (ih hp.of_cons fun z hz he => hta z (List.mem_cons_of_mem y hz) he)
      intro z hz
      have hz2 := (insort_perm x ys).mem_iff.mp hz
      rcases List.mem_cons.mp hz2 with rfl | hz3
      · rcases Nat.lt_or_eq_of_le (Nat.le_of_not_lt hnlt) with h | h
        · exact Or.inl h
        · exact Or.inr ⟨h, hta y (List.mem_cons_self y ys) h.symm⟩
      · exact List.rel_of_pairwise_cons hp hz3

theorem sortFold_pairwise (l acc : List (Nat × Nat × List Char))
    (hacc : acc.Pairwise swOrd)
    (hl : l.Pairwise fun a b => a.2.1 < b.2.1)
    (hcross : ∀ y ∈ acc, ∀ z ∈ l, y.1 = z.1 → y.2.1 < z.2.1) :
    (l.foldl (fun a x => insortByScore x a) acc).Pairwise swOrd := by
  induction l generalizing acc with
  | nil => exact hacc
  | cons x t ih =>
    rw [List.foldl_cons]
    refine ih (insortByScore x acc) ?_ hl.of_cons ?_
    · exact insort_pairwise x acc hacc
        fun y hy he => hcross y hy x (List.mem_cons_self x t) he
    · intro y hy z hz he
      have hy2 := (insort_perm x acc).mem_iff.mp hy
      rcases List.mem_cons.mp hy2 with rfl | hy3
      · exact List.rel_of_pairwise_cons hl hz
      · exact hcross y hy3 z (List.mem_cons_of_mem x hz) he

theorem sortByScoreDesc_pairwise (l : List (Nat × Nat × List Char))
    (hl : l.Pairwise fun a b => a.2.1 < b.2.1) :
    (sortByScoreDesc l).Pairwise swOrd := by
  unfold sortByScoreDesc
  exact sortFold_pairwise l [] List.Pairwise.nil hl
    fun y hy => absurd hy (List.not_mem_nil y)

theorem slidingAuxF_offsets (cs : List Char) (w step fuel : Nat) :
    ∀ idx,
      ((slidingWindowAuxF cs w step fuel idx).Pairwise
        fun a b => a.1 < b.1) ∧
      ∀ q ∈ slidingWindowAuxF cs w step fuel idx, idx ≤ q.1 := by
  induction fuel with
  | zero =>
    intro idx
    exact ⟨List.Pairwise.nil, fun q hq => absurd hq (List.not_mem_nil q)⟩
  | succ fuel ih =>
    intro idx
    unfold slidingWindowAuxF
    split
    · rename_i hg
      split
      · constructor
        · exact List.pairwise_singleton _ _
        · intro q hq
          rcases List.mem_singleton.mp hq with rfl
          exact le_refl _
      · obtain ⟨hp, hub⟩ := ih (idx + step)
        obtain ⟨hle, hstep⟩ := hg
        constructor
        · refine List.Pairwise.cons ?_ hp
          intro q hq
          have := hub q hq
          omega
        · intro q hq
          rcases List.mem_cons.mp hq with rfl | hq2
          · exact le_refl _
          · have := hub q hq2
            omega
    · exact ⟨List.Pairwise.nil, fun q hq => absurd hq (List.not_mem_nil q)⟩

theorem sliding_window_offsets (cs : List Char) (w step : Nat) :
    (sliding_window cs w step).Pairwise fun a b => a.1 < b.1 := by
  unfold sliding_window
  split
  · exact List.pairwise_singleton _ _
  · split
    · exact List.pairwise_singleton _ _
    · exact (slidingAuxF_offsets cs w step (cs.length - 0) 0).1

theorem pairwise_filterMap_of {α β : Type} (f : α → Option β)
    (R : β → β → Prop) (S : α → α → Prop)
    (h : ∀ a b, S a b → ∀ x, f a = some x → ∀ y, f b = some y → R x y)
    (l : List α) (hl : l.Pairwise S) : (l.filterMap f).Pairwise R := by
  induction l with
  | nil => simp
  | cons a t ih =>
    rcases hfa : f a with _ | x
    · simp only [List.filterMap_cons, hfa]
      exact ih hl.of_cons
    · simp only [List.filterMap_cons, hfa]
      refine List.Pairwise.cons ?_ (ih hl.of_cons)
      intro y hy
      rcases List.mem_filterMap.mp hy with ⟨b, hb, hfb⟩
      exact h a b (List.rel_of_pairwise_cons hl hb) x hfa y hfb

theorem scoredWindows_offsets (text : List Char) (cfg : PaperConfig)
    (kws : List String) :
    (scoredWindows text cfg kws).Pairwise fun a b => a.2.1 < b.2.1 := by
  unfold scoredWindows
  refine pairwise_filterMap_of _ _ (fun a b => a.1 < b.1) ?_ _
    (sliding_window_offsets text cfg.window_chars cfg.window_step)
  intro a b hab x hx y hy
  dsimp only at hx hy
  split at hx
  · cases hx
  · split at hy
    · cases hy
    · rw [Option.some.injEq] at hx hy
      rw [← hx, ← hy]
      exact hab

theorem scoredWindows_mem (text : List Char) (cfg : PaperConfig)
    (kws : List String) (q : Nat × Nat × List Char) :
    q ∈ scoredWindows text cfg kws ↔
      ((q.2.1, q.2.2) ∈ sliding_window text cfg.window_chars cfg.window_step
        ∧ q.1 = score_window q.2.2 kws ∧ 0 < q.1) := by
  unfold scoredWindows
  rw [List.mem_filterMap]
  constructor
  · rintro ⟨a, ha, hfa⟩
    dsimp only at hfa
    split at hfa
    · cases hfa
    · rename_i hs
      rw [Option.some.injEq] at hfa
      rw [← hfa]
      exact ⟨ha, rfl, Nat.lt_of_not_le hs⟩
  · rintro ⟨hmem, hsc, hpos⟩
    refine ⟨(q.2.1, q.2.2), hmem, ?_⟩
    dsimp only
    rw [if_neg (by omega)]
    rw [← hsc]

theorem groupSnippets_field_group (gse source : String) (cfg : PaperConfig)
    (text : List Char) (headings : List (Nat × List Char))
    (fg : String × List String) :
    ∀ s ∈ groupSnippets gse source cfg text headings fg,
      s.field_group = fg.1 := by
  intro s hs
  rcases List.mem_map.mp hs with ⟨q, _, rfl⟩
  rfl

theorem flatMap_filter_group (gse source : String) (cfg : PaperConfig)
    (text : List Char) (headings : List (Nat × List Char))
    (L : List (String × List String)) (fg : String × List String)
    (hmem : fg ∈ L) (hnd : (L.map (·.1)).Nodup) :
    (L.flatMap (groupSnippets gse source cfg text headings)).filter
        (fun s => s.field_group = fg.1)
      = groupSnippets gse source cfg text headings fg := by
  induction L with
  | nil => cases hmem
  | cons g t ih =>
    rw [List.flatMap_cons, List.filter_append]
    rw [List.map_cons, List.nodup_cons] at hnd
    rcases List.mem_cons.mp hmem with rfl | hmem2
    · have h1 : (groupSnippets gse source cfg text headings fg).filter
          (fun s => s.field_group = fg.1)
          = groupSnippets gse source cfg text headings fg := by
        rw [List.filter_eq_self]
        intro s hs
        have he := groupSnippets_field_group gse source cfg text headings
          fg s hs
        simp [he]
      have h2 : (t.flatMap
            (groupSnippets gse source cfg text headings)).filter
          (fun s => s.field_group = fg.1) = [] := by
        rw [List.filter_eq_nil_iff]
        intro s hs hcon
        rcases List.mem_flatMap.mp hs with ⟨g2, hg2, hsg2⟩
        have he := groupSnippets_field_group gse source cfg text headings
          g2 s hsg2
        simp only [decide_eq_true_eq] at hcon
        refine hnd.1 (List.mem_map.mpr ⟨g2, hg2, ?_⟩)
        rw [← he, hcon]
      rw [h1, h2, List.append_nil]
    · have hg1 : ¬ g.1 = fg.1 := by
        intro he
        exact hnd.1 (he ▸ List.mem_map.mpr ⟨fg, hmem2, rfl⟩)
      have h1 : (groupSnippets gse source cfg text headings g).filter
          (fun s => s.field_group = fg.1) = [] := by
        rw [List.filter_eq_nil_iff]
        intro s hs hcon
        have he := groupSnippets_field_group gse source cfg text headings
          g s hs
        simp only [decide_eq_true_eq] at hcon
        exact hg1 (he ▸ hcon)
      rw [h1, List.nil_append]
      exact ih hmem2 hnd.2

theorem field_group_keys_nodup : (FIELD_GROUP_KEYWORDS.map (·.1)).Nodup := by
  simp [FIELD_GROUP_KEYWORDS]

/-- C8: the scored list a field group retains holds exactly the generated
windows with keyword score strictly above 0 (paired with their score and
offset); after the stable sort it is ordered by descending score with ties
by ascending offset; a group contributes at most `max_snippets_per_field`
snippets (default 3); and the snippets of `find_snippets` carrying a
field group's name are exactly that group's contribution. -/
theorem find_snippets_group_policy :
    (∀ (text : List Char) (cfg : PaperConfig) (kws : List String)
        (q : Nat × Nat × List Char),
      q ∈ sortByScoreDesc (scoredWindows text cfg kws) ↔
        ((q.2.1, q.2.2) ∈
            sliding_window text cfg.window_chars cfg.window_step ∧
          q.1 = score_window q.2.2 kws ∧ 0 < q.1)) ∧
    (∀ (text : List Char) (cfg : PaperConfig) (kws : List String),
      (sortByScoreDesc (scoredWindows text cfg kws)).Pairwise swOrd) ∧
    (∀ (gse source : String) (cfg : PaperConfig) (text : List Char)
        (headings : List (Nat × List Char)) (fg : String × List String),
      (groupSnippets gse source cfg text headings fg).length
        ≤ cfg.max_snippets_per_field) ∧
    DEFAULT_CFG.max_snippets_per_field = 3 ∧
    (∀ (gse ptext source : String) (cfg : PaperConfig)
        (fg : String × List String),
      fg ∈ FIELD_GROUP_KEYWORDS → ptext ≠ "" →
      clean_text ptext.toList ≠ [] →
      (find_snippets gse ptext source cfg).filter
          (fun s => s.field_group = fg.1)
        = groupSnippets gse source cfg (clean_text ptext.toList)
            (build_heading_lookup (clean_text ptext.toList)) fg) := by
  refine ⟨fun text cfg kws q => ?_, fun text cfg kws => ?_,
    fun gse source cfg text headings fg => ?_, rfl,
    fun gse ptext source cfg fg hmem hne hct => ?_⟩
  · rw [(sortByScoreDesc_perm _).mem_iff]
    exact scoredWindows_mem text cfg kws q
  · exact sortByScoreDesc_pairwise _ (scoredWindows_offsets text cfg kws)
  · unfold groupSnippets
    rw [List.length_map, List.length_take]
    exact min_le_left _ _
  · unfold find_snippets
    rw [if_neg hne]
    dsimp only
    rw [if_neg hct]
    exact flatMap_filter_group gse source cfg _ _ FIELD_GROUP_KEYWORDS fg
      hmem field_group_keys_nodup

/-- Concrete input for the snippet-selection policy. -/
def c8Text : String :=
  "Gestational age at delivery was 39 weeks. Parity data were recorded."

def c8T : List Char := clean_text c8Text.toList

def c8Fg : String × List String := FIELD_GROUP_KEYWORDS.getD 0 ("", [])

/-- One retained scored window of `c8Fg` on `c8T`. -/
def c8Q : Nat × Nat × List Char :=
  (sortByScoreDesc (scoredWindows c8T DEFAULT_CFG c8Fg.2)).getD 0 (0, 0, [])

set_option maxRecDepth 8000 in
/-- The snippet-selection policy theorem instantiated at a concrete text
and the first field group, every hypothesis discharged by evaluation. -/
theorem find_snippets_group_policy_witness :
    (c8Q ∈ sortByScoreDesc (scoredWindows c8T DEFAULT_CFG c8Fg.2) ↔
      ((c8Q.2.1, c8Q.2.2) ∈
          sliding_window c8T DEFAULT_CFG.window_chars
            DEFAULT_CFG.window_step ∧
        c8Q.1 = score_window c8Q.2.2 c8Fg.2 ∧ 0 < c8Q.1)) ∧
    (sortByScoreDesc (scoredWindows c8T DEFAULT_CFG c8Fg.2)).Pairwise
      swOrd ∧
    (groupSnippets "GSE8" "pmc_xml" DEFAULT_CFG c8T
        (build_heading_lookup c8T) c8Fg).length
      ≤ DEFAULT_CFG.max_snippets_per_field ∧
    (find_snippets "GSE8" c8Text "pmc_xml" DEFAULT_CFG).filter
        (fun s => s.field_group = c8Fg.1)
      = groupSnippets "GSE8" "pmc_xml" DEFAULT_CFG (clean_text c8Text.toList)
          (build_heading_lookup (clean_text c8Text.toList)) c8Fg :=
  ⟨find_snippets_group_policy.1 c8T DEFAULT_CFG c8Fg.2 c8Q,
    find_snippets_group_policy.2.1 c8T DEFAULT_CFG c8Fg.2,
    find_snippets_group_policy.2.2.1 "GSE8" "pmc_xml" DEFAULT_CFG c8T
      (build_heading_lookup c8T) c8Fg,
    find_snippets_group_policy.2.2.2.2 "GSE8" c8Text "pmc_xml" DEFAULT_CFG
      c8Fg (by decide) (by decide) (by decide)⟩

end GeoScrap

